import Mathlib

/-!
Verification development for `cable_modem_stats.py`: a shallow embedding of
the status-page acquisition and parsing core (Channel Records, Table
Extractor, Vendor Parsers, Session Manager, Poll Orchestrator) together
with theorems settling the specification claims.

Conventions of the embedding:
* Python exceptions are `Except PyErr`; `RuntimeError` raised on a second
  login-required page is `PyErr.authenticationFailed` (the spec's
  `AuthenticationFailed`), `IndexError` is `PyErr.indexError`,
  `ValueError` from `int()`/`float()` is `PyErr.valueError`, and a read of
  an unbound local variable (`NameError`) is `PyErr.nameError`.
* Python floats are modelled as exact values (`PyFloat`): a finite value is
  carried as the exact rational denoted by the literal (no IEEE rounding is
  modelled; no arithmetic is ever performed on parsed values), and the
  special values `inf`, `-inf`, `nan` are explicit constructors.
* Dynamically typed namedtuple fields (`None` / `str` / `int` / `float`)
  are `PyVal`.
* BeautifulSoup documents are modelled structurally: a `Page` has a title
  string and a list of tables; a table has its `class` attribute values and
  rows of cells; a cell records whether it is a `<th>` and its optional
  text content (`.string` is the content, `None` for an empty cell;
  `.text` is the content with `None` read as `""`).
-/

namespace CableModemStats

/-- Python exception kinds reachable in the modelled code. -/
inductive PyErr where
  | indexError
  | valueError (input : String)
  | nameError
  | authenticationFailed
deriving DecidableEq, Repr

/-- A Python float: an exact finite value, or one of the special values
produced by `float('inf')`, `float('-inf')`, `float('nan')`. -/
inductive PyFloat where
  | finite (q : ℚ)
  | inf
  | neginf
  | nan
deriving DecidableEq, Repr

/-- A dynamically typed Python value as stored in a channel record field:
`None`, a string, an int, or a float. -/
inductive PyVal where
  | none
  | str (s : String)
  | int (n : ℤ)
  | float (f : PyFloat)
deriving DecidableEq, Repr

/-- Characters stripped by Python `str.strip()` (ASCII whitespace). -/
def pyWhitespace (c : Char) : Bool :=
  c = ' ' || c = '\t' || c = '\n' || c = '\r' || c = '\x0b' || c = '\x0c'

/-- Python `str.strip()`: remove leading and trailing whitespace. -/
def pyStrip (s : String) : String :=
  String.mk (((s.toList.dropWhile pyWhitespace).reverse.dropWhile pyWhitespace).reverse)

/-- Value of a nonempty run of decimal digits. -/
def natOfDigits (cs : List Char) : ℕ :=
  cs.foldl (fun a c => a * 10 + (c.toNat - 48)) 0

/-- Python `int(s)` on a string: strip whitespace, optional sign, a
nonempty run of decimal digits; anything else raises `ValueError`.
(Underscore digit separators, accepted by CPython, are not modelled; no
input in this development uses them.) -/
def pyInt (s : String) : Except PyErr ℤ :=
  let cs := (pyStrip s).toList
  let signed : ℤ × List Char :=
    match cs with
    | '+' :: rest => (1, rest)
    | '-' :: rest => (-1, rest)
    | rest => (1, rest)
  if signed.2 ≠ [] ∧ signed.2.all Char.isDigit then
    .ok (signed.1 * (natOfDigits signed.2 : ℤ))
  else
    .error (.valueError s)

/-- Split a character list at the first character satisfying `p`,
returning the part before it and, if found, the part after it. -/
def splitFirst (p : Char → Bool) : List Char → List Char × Option (List Char)
  | [] => ([], Option.none)
  | c :: rest =>
    if p c then ([], some rest)
    else
      let r := splitFirst p rest
      (c :: r.1, r.2)

/-- Parse an unsigned decimal mantissa `digits[.digits]` (at least one
digit overall), returning the digit value and the number of fractional
digits: the denoted value is `digitValue / 10 ^ fracLen`. -/
def parseMantissa (cs : List Char) : Option (ℕ × ℕ) :=
  let parts := splitFirst (fun c => c = '.') cs
  let ip := parts.1
  let fp := (parts.2).getD []
  if ip.all Char.isDigit ∧ fp.all Char.isDigit ∧ (ip ≠ [] ∨ fp ≠ []) then
    some (natOfDigits (ip ++ fp), fp.length)
  else
    Option.none

/-- Parse an optional exponent part (the characters after `e`/`E`). -/
def parseExponent (cs : List Char) : Option ℤ :=
  let signed : ℤ × List Char :=
    match cs with
    | '+' :: rest => (1, rest)
    | '-' :: rest => (-1, rest)
    | rest => (1, rest)
  if signed.2 ≠ [] ∧ signed.2.all Char.isDigit then
    some (signed.1 * (natOfDigits signed.2 : ℤ))
  else
    Option.none

/-- The rational `neg? digitValue * 10 ^ (e - fracLen)`, built with a
single `mkRat` so it is kernel-computable. -/
def ratOfParts (neg : Bool) (digitValue fracLen : ℕ) (e : ℤ) : ℚ :=
  let sign : ℤ := if neg then -1 else 1
  let p : ℤ := e - (fracLen : ℤ)
  if 0 ≤ p then mkRat (sign * (digitValue : ℤ) * ((10 ^ p.toNat : ℕ) : ℤ)) 1
  else mkRat (sign * (digitValue : ℤ)) (10 ^ (-p).toNat)

/-- Parse the body (sign already removed) of a Python float literal:
`digits[.digits][(e|E)[sign]digits]`, as the signed denoted value. -/
def parseFloatBody (neg : Bool) (cs : List Char) : Option ℚ :=
  let parts := splitFirst (fun c => c = 'e' || c = 'E') cs
  match parseMantissa parts.1 with
  | Option.none => Option.none
  | some m =>
    match parts.2 with
    | Option.none => some (ratOfParts neg m.1 m.2 0)
    | some ecs =>
      match parseExponent ecs with
      | Option.none => Option.none
      | some e => some (ratOfParts neg m.1 m.2 e)

/-- Python `float(s)` on a string: strip whitespace, optional sign, then
either the keywords `inf`/`infinity`/`nan` (case-insensitive) or a decimal
literal with optional fraction and exponent; anything else raises
`ValueError`. Finite results are kept exact. -/
def pyFloatParse (s : String) : Except PyErr PyFloat :=
  let cs := (pyStrip s).toList
  let signed : Bool × List Char :=
    match cs with
    | '+' :: rest => (false, rest)
    | '-' :: rest => (true, rest)
    | rest => (false, rest)
  let low := String.mk (signed.2.map Char.toLower)
  if low = "inf" ∨ low = "infinity" then
    .ok (if signed.1 then .neginf else .inf)
  else if low = "nan" then
    .ok .nan
  else
    match parseFloatBody signed.1 signed.2 with
    | some q => .ok (.finite q)
    | Option.none => .error (.valueError s)

/-- `int` used as a `str_map` conversion: wraps the result as a `PyVal`. -/
def pyIntV (s : String) : Except PyErr PyVal :=
  (pyInt s).map PyVal.int

/-- `float` used as a `str_map` conversion: wraps the result as a `PyVal`. -/
def pyFloatV (s : String) : Except PyErr PyVal :=
  (pyFloatParse s).map PyVal.float

/-- `str_map(value, fn)` from the source: if the value is truthy apply the
conversion, otherwise return the value unchanged (`None` stays `None`, and
an empty string — falsy in Python — is returned as the empty string, not
converted). -/
def str_map (value : Option String) (fn : String → Except PyErr PyVal) :
    Except PyErr PyVal :=
  match value with
  | Option.none => .ok PyVal.none
  | some s => if s = "" then .ok (PyVal.str "") else fn s

/-- Python `seq[i]`: the element, or `IndexError` when out of range. -/
def pyIndex {α : Type} (l : List α) (i : ℕ) : Except PyErr α :=
  match l.get? i with
  | some x => .ok x
  | Option.none => .error .indexError

/-- `DownstreamChannel` namedtuple: declared field order
`channel_id frequency power snr corrected uncorrectables`. -/
structure DownstreamChannel where
  channel_id : PyVal
  frequency : PyVal
  power : PyVal
  snr : PyVal
  corrected : PyVal
  uncorrectables : PyVal
deriving DecidableEq, Repr

/-- `UpstreamChannel` namedtuple: declared field order
`channel_id frequency power snr`. -/
structure UpstreamChannel where
  channel_id : PyVal
  frequency : PyVal
  power : PyVal
  snr : PyVal
deriving DecidableEq, Repr

/-- `downstream(channel_details)` from the source: build a
`DownstreamChannel` from the first six cells, converting positions 0, 4, 5
with `int` and 1, 2, 3 with `float` through `str_map`. -/
def downstream (channel_details : List (Option String)) :
    Except PyErr DownstreamChannel := do
  let c0 ← pyIndex channel_details 0
  let channel_id ← str_map c0 pyIntV
  let c1 ← pyIndex channel_details 1
  let frequency ← str_map c1 pyFloatV
  let c2 ← pyIndex channel_details 2
  let power ← str_map c2 pyFloatV
  let c3 ← pyIndex channel_details 3
  let snr ← str_map c3 pyFloatV
  let c4 ← pyIndex channel_details 4
  let corrected ← str_map c4 pyIntV
  let c5 ← pyIndex channel_details 5
  let uncorrectables ← str_map c5 pyIntV
  return ⟨channel_id, frequency, power, snr, corrected, uncorrectables⟩

/-- `upstream(channel_details)` from the source. -/
def upstream (channel_details : List (Option String)) :
    Except PyErr UpstreamChannel := do
  let c0 ← pyIndex channel_details 0
  let channel_id ← str_map c0 pyIntV
  let c1 ← pyIndex channel_details 1
  let frequency ← str_map c1 pyFloatV
  let c2 ← pyIndex channel_details 2
  let power ← str_map c2 pyFloatV
  let c3 ← pyIndex channel_details 3
  let snr ← str_map c3 pyFloatV
  return ⟨channel_id, frequency, power, snr⟩

/-- One table cell: whether it is a `<th>` element, and its text content
(`Option.none` for a cell with no text node; BeautifulSoup `.string` of
such a cell is `None`). -/
structure Cell where
  isHeader : Bool
  content : Option String
deriving DecidableEq, Repr

/-- The `.text` of a cell (empty string when there is no text node). -/
def cellText (c : Cell) : String :=
  c.content.getD ""

/-- One `<table>` element: its `class` attribute values and its direct
child rows, each a list of direct child cells. -/
structure HTable where
  classes : List String
  rows : List (List Cell)
deriving DecidableEq, Repr

/-- A parsed HTML document: its `<title>` text and its tables. -/
structure Page where
  title : String
  tables : List HTable
deriving DecidableEq, Repr

/-- `CableModem._parse_table`: for each direct child row, collect the
`.string` of each direct child `<td>` cell (header cells excluded). -/
def parse_table (t : HTable) : List (List (Option String)) :=
  t.rows.map (fun r => (r.filter (fun c => !c.isHeader)).map (fun c => c.content))

/-- Whether `pattern` is an initial segment of `cs`. -/
def startsWithChars : List Char → List Char → Bool
  | [], _ => true
  | _ :: _, [] => false
  | a :: pat, c :: cs => a = c && startsWithChars pat cs

/-- Whether `pattern` occurs anywhere in `cs`. -/
def containsChars (pattern : List Char) : List Char → Bool
  | [] => pattern.isEmpty
  | c :: cs => startsWithChars pattern (c :: cs) || containsChars pattern cs

/-- Substring test (Python `needle in haystack`). -/
def pyInStr (needle haystack : String) : Bool :=
  containsChars needle.toList haystack.toList

/-- Replace every non-overlapping occurrence of `pattern` (left to right)
by `repl`. The fuel argument only forces structural recursion; it is
initialised to the input length, which the remaining input never
exceeds. -/
def replaceCharsFuel (pattern repl : List Char) : ℕ → List Char → List Char
  | 0, cs => cs
  | _ + 1, [] => []
  | fuel + 1, c :: cs =>
    if pattern ≠ [] ∧ startsWithChars pattern (c :: cs) then
      repl ++ replaceCharsFuel pattern repl fuel (List.drop (pattern.length - 1) cs)
    else
      c :: replaceCharsFuel pattern repl fuel cs

/-- Python `s.replace(pattern, repl)`. -/
def pyReplace (s pattern repl : String) : String :=
  String.mk (replaceCharsFuel pattern.toList repl.toList s.toList.length s.toList)

instance instDecEqExcept {ε α : Type} [DecidableEq ε] [DecidableEq α] :
    DecidableEq (Except ε α) := fun x y =>
  match x, y with
  | .error a, .error b =>
    match decEq a b with
    | isTrue h => isTrue (by rw [h])
    | isFalse h => isFalse (fun hc => h (Except.error.inj hc))
  | .error _, .ok _ => isFalse (fun hc => Except.noConfusion hc)
  | .ok _, .error _ => isFalse (fun hc => Except.noConfusion hc)
  | .ok a, .ok b =>
    match decEq a b with
    | isTrue h => isTrue (by rw [h])
    | isFalse h => isFalse (fun hc => h (Except.ok.inj hc))

/-! ## Motorola MB7621 vendor parser (class-selected strategy) -/

/-- Parser state accumulated by `_parse_status_page`: the channel lists and
the warnings printed so far. -/
structure ParseState where
  downstream_channels : List DownstreamChannel
  upstream_channels : List UpstreamChannel
  warnings : List String
deriving DecidableEq, Repr

/-- Fresh state of a `CableModem` instance. -/
def initState : ParseState :=
  ⟨[], [], []⟩

/-- The sentinel first header cell of an MB7621 status table
(`'\xa0\xa0\xa0Channel'`). -/
def mb7621Sentinel : String :=
  "\xa0\xa0\xa0Channel"

/-- Expected downstream header labels after the first three columns. -/
def mb7621DsHeaders : List String :=
  ["Channel ID", "Freq. (MHz)", "Pwr (dBmV)", "SNR (dB)", "Corrected", "Uncorrected"]

/-- Expected upstream header labels after the first three columns. -/
def mb7621UsHeaders : List String :=
  ["Channel ID", "Symb. Rate (Ksym/sec)", "Freq. (MHz)", "Pwr (dBmV)"]

/-- Warning printed when a nine-column sentinel table has unexpected
trailing header labels. -/
def mb7621DsWarning : String :=
  "WARNING: Downstream table did not match."

/-- Warning printed when a seven-column sentinel table has unexpected
trailing header labels. -/
def mb7621UsWarning : String :=
  "WARNING: Upstream table did not match."

/-- The downstream data-row loop of `MotorolaMB7621._parse_status_page`:
skip rows whose second cell is not `"Locked"` or whose first cell is
`"Total"`; otherwise build a `DownstreamChannel` from the cells after the
third and append it. Reading `row[1]` of a row with fewer than two cells
raises `IndexError`. -/
def mb7621DownRows (rows : List (List (Option String))) (st : ParseState) :
    Except PyErr ParseState :=
  match rows with
  | [] => .ok st
  | row :: rest => do
    let lock ← pyIndex row 1
    if lock ≠ some "Locked" ∨ row.headD Option.none = some "Total" then
      mb7621DownRows rest st
    else do
      let channel_data ← downstream (row.drop 3)
      mb7621DownRows rest
        { st with downstream_channels := st.downstream_channels ++ [channel_data] }

/-- The upstream data-row loop of `MotorolaMB7621._parse_status_page`:
skip rows whose second cell is not `"Locked"`; otherwise build an
`UpstreamChannel` from `[row[3]] + row[5:] + [None]` (the symbol-rate
column is skipped and SNR is always absent) and append it. -/
def mb7621UpRows (rows : List (List (Option String))) (st : ParseState) :
    Except PyErr ParseState :=
  match rows with
  | [] => .ok st
  | row :: rest => do
    let lock ← pyIndex row 1
    if lock ≠ some "Locked" then
      mb7621UpRows rest st
    else do
      let c3 ← pyIndex row 3
      let input_data := [c3] ++ row.drop 5 ++ [Option.none]
      let channel_data ← upstream input_data
      mb7621UpRows rest
        { st with upstream_channels := st.upstream_channels ++ [channel_data] }

/-- Processing of one candidate table in
`MotorolaMB7621._parse_status_page`: extract the raw cells, skip an empty
table, skip a table whose first header cell is not the sentinel,
disambiguate downstream/upstream by header length (9 vs 7), check the
trailing header labels (on mismatch print a warning and skip the table),
otherwise run the matching row loop. A sentinel table whose header length
is neither 9 nor 7 falls through both branches and is skipped silently. -/
def mb7621Table (t : HTable) (st : ParseState) : Except PyErr ParseState :=
  if parse_table t = [] then .ok st
  else do
    let header_name ← pyIndex ((parse_table t).headD []) 0
    if header_name ≠ some mb7621Sentinel then .ok st
    else if ((parse_table t).headD []).length = 9 then
      if ((parse_table t).headD []).drop 3 ≠ mb7621DsHeaders.map some then
        .ok { st with warnings := st.warnings ++ [mb7621DsWarning] }
      else
        mb7621DownRows ((parse_table t).drop 1) st
    else if ((parse_table t).headD []).length = 7 then
      if ((parse_table t).headD []).drop 3 ≠ mb7621UsHeaders.map some then
        .ok { st with warnings := st.warnings ++ [mb7621UsWarning] }
      else
        mb7621UpRows ((parse_table t).drop 1) st
    else
      .ok st

/-- Fold of `mb7621Table` over the selected tables. -/
def mb7621Tables (ts : List HTable) (st : ParseState) : Except PyErr ParseState :=
  match ts with
  | [] => .ok st
  | t :: rest => do
    let st' ← mb7621Table t st
    mb7621Tables rest st'

/-- The CSS class selecting MB7621 status tables. -/
def motoTableClass : String :=
  "moto-table-content"

/-- `MotorolaMB7621._parse_status_page`: select the tables carrying the
`moto-table-content` class and process each in document order, starting
from a fresh state. -/
def mb7621ParseStatusPage (page : Page) : Except PyErr ParseState :=
  mb7621Tables (page.tables.filter (fun t => motoTableClass ∈ t.classes)) initState

/-- `MotorolaMB7621.needs_authentication`: the page title contains
`'Login'`. -/
def mb7621NeedsAuth (page : Page) : Bool :=
  pyInStr "Login" page.title

/-! ## Poll orchestrator (`CableModem._process_modem_status`) -/

/-- Observable side effects of one poll cycle: a status-page GET, the
login POST, the capture-time sample, and the invocation of the page
parser. -/
inductive Event where
  | fetch
  | post
  | sample
  | parse
deriving DecidableEq, BEq, Repr

/-- Outcome of one poll cycle: the ordered side effects and either the
parsed state paired with the sampled capture time, or the error that
aborted the cycle. -/
structure PollOutcome where
  events : List Event
  result : Except PyErr (ParseState × ℕ)
deriving Repr

/-- `CableModem._process_modem_status`, abstracted over the environment:
`needsAuth` is the vendor's `needs_authentication`, `doPost` records
whether the vendor's `authenticate` sends a login POST (for the MB7621 it
does exactly when credentials were supplied), `pages n` is the page
returned by the (n+1)-th GET, `parse` is the vendor's
`_parse_status_page`, and `now` is the value `_record_when` samples.
The sequence is: fetch; if login is required, authenticate and re-fetch
once; if the re-fetched page still requires login, raise; otherwise sample
the time and parse. -/
def processModemStatus (needsAuth : Page → Bool) (doPost : Bool)
    (pages : ℕ → Page) (parse : Page → Except PyErr ParseState) (now : ℕ) :
    PollOutcome :=
  let page0 := pages 0
  if needsAuth page0 then
    let authEvents := if doPost then [Event.post] else []
    let page1 := pages 1
    if needsAuth page1 then
      ⟨[Event.fetch] ++ authEvents ++ [Event.fetch], .error .authenticationFailed⟩
    else
      ⟨[Event.fetch] ++ authEvents ++ [Event.fetch, Event.sample, Event.parse],
        (parse page1).map (fun st => (st, now))⟩
  else
    ⟨[Event.fetch, Event.sample, Event.parse],
      (parse page0).map (fun st => (st, now))⟩

/-- A stateful model of the modem's embedded web server, matching the test
fixture: GETs return the login page until a POST with accepted credentials
is observed, then the status page. -/
structure Server where
  loginPage : Page
  statusPage : Page
  accepts : String → String → Bool

/-- The page served by a GET given the current login state. -/
def srvPage (srv : Server) (loggedIn : Bool) : Page :=
  if loggedIn then srv.statusPage else srv.loginPage

/-- `CableModem._process_modem_status` with the `MotorolaMB7621`
overrides, run against the stateful server model. `authenticate` returns
without posting when no credentials were supplied (`auth = none`);
otherwise it POSTs the credentials (on the wire the password is
base64-encoded; the server model compares the decoded plaintext). -/
def mb7621ServerProcess (auth : Option (String × String)) (srv : Server)
    (now : ℕ) : PollOutcome :=
  let page0 := srvPage srv false
  if mb7621NeedsAuth page0 then
    match auth with
    | Option.none =>
      let page1 := srvPage srv false
      if mb7621NeedsAuth page1 then
        ⟨[Event.fetch, Event.fetch], .error .authenticationFailed⟩
      else
        ⟨[Event.fetch, Event.fetch, Event.sample, Event.parse],
          (mb7621ParseStatusPage page1).map (fun st => (st, now))⟩
    | some (username, password) =>
      let page1 := srvPage srv (srv.accepts username password)
      if mb7621NeedsAuth page1 then
        ⟨[Event.fetch, Event.post, Event.fetch], .error .authenticationFailed⟩
      else
        ⟨[Event.fetch, Event.post, Event.fetch, Event.sample, Event.parse],
          (mb7621ParseStatusPage page1).map (fun st => (st, now))⟩
  else
    ⟨[Event.fetch, Event.sample, Event.parse],
      (mb7621ParseStatusPage page0).map (fun st => (st, now))⟩

/-! ## Line-protocol output (`CableModem._format_influxdb`) -/

/-- Rendering of a finite float value. Python renders floats in decimal
notation; the exact digit string is irrelevant to every claim, so the
rendering here is any fixed injective function of the value. -/
def ratRepr (q : ℚ) : String :=
  if q.den = 1 then toString q.num ++ ".0"
  else toString q.num ++ "/" ++ toString q.den

/-- `str(value)` for a float value. -/
def pyFloatRepr : PyFloat → String
  | .finite q => ratRepr q
  | .inf => "inf"
  | .neginf => "-inf"
  | .nan => "nan"

/-- `str(value)` for a field value. -/
def pyValStr : PyVal → String
  | .none => "None"
  | .str s => s
  | .int n => toString n
  | .float f => pyFloatRepr f

/-- The `(field name, value)` pairs of a `DownstreamChannel` in declared
field order (`namedtuple._fields`). -/
def dsFieldPairs (ch : DownstreamChannel) : List (String × PyVal) :=
  [("channel_id", ch.channel_id), ("frequency", ch.frequency),
   ("power", ch.power), ("snr", ch.snr),
   ("corrected", ch.corrected), ("uncorrectables", ch.uncorrectables)]

/-- The `(field name, value)` pairs of an `UpstreamChannel` in declared
field order. -/
def usFieldPairs (ch : UpstreamChannel) : List (String × PyVal) :=
  [("channel_id", ch.channel_id), ("frequency", ch.frequency),
   ("power", ch.power), ("snr", ch.snr)]

/-- `format_channel` from `_format_influxdb`: render the tags, collect
`name=value` for every field whose value is not `None` (in declared field
order), and assemble
`'{measurement},{tags} {fields} {when}'`. -/
def formatChannel (measurement current_ns : String)
    (fieldPairs : List (String × PyVal)) (tags : List (String × String)) :
    String :=
  let tagStrs := tags.map (fun t => t.1 ++ "=" ++ t.2)
  let fieldStrs := fieldPairs.foldl
    (fun acc f => if f.2 = PyVal.none then acc else acc ++ [f.1 ++ "=" ++ pyValStr f.2]) []
  measurement ++ "," ++ String.intercalate "," tagStrs ++ " " ++
    String.intercalate "," fieldStrs ++ " " ++ current_ns

/-- The timestamp suffix: `'{}000000000'.format(trunc(time))`. -/
def nsString (time : ℕ) : String :=
  toString time ++ "000000000"

/-- The list of line-protocol lines built by `_format_influxdb`:
downstream channels then upstream channels, each tagged with its direction
and its 1-based position (`enumerate` index + 1). -/
def influxLines (ds : List DownstreamChannel) (us : List UpstreamChannel)
    (current_ns : String) : List String :=
  (ds.enum.map (fun p =>
    formatChannel "cable_modem" current_ns (dsFieldPairs p.2)
      [("direction", "downstream"), ("channel", toString (p.1 + 1))])) ++
  (us.enum.map (fun p =>
    formatChannel "cable_modem" current_ns (usFieldPairs p.2)
      [("direction", "upstream"), ("channel", toString (p.1 + 1))]))

/-- `CableModem._format_influxdb`: all lines joined with newlines, using
the capture time recorded by `_record_when`. -/
def formatInfluxdb (st : ParseState) (time : ℕ) : String :=
  String.intercalate "\n" (influxLines st.downstream_channels st.upstream_channels (nsString time))

/-! ## Arris SB6183 vendor parser (positional strategy)

`ArrisSB6183.parse_modem` builds one dict per channel; the dict is
modelled as `ArrisPoint` (`corrected`/`uncorrectables` are present only in
downstream points). The local variable `snr` of `parse_modem` — assigned
only inside the downstream loop, read by the upstream loop — is threaded
explicitly as an `Option String` (`Option.none` = unbound; reading it then
raises `NameError`). -/

/-- One element of the `series` list built by `ArrisSB6183.parse_modem`. -/
structure ArrisPoint where
  time : String
  channel : ℤ
  direction : String
  channel_id : ℤ
  frequency : ℤ
  power : PyFloat
  snr : PyFloat
  corrected : Option ℤ
  uncorrectables : Option ℤ
deriving DecidableEq, Repr

/-- Whether a row contains a `<th>` cell (`table_row.th` is truthy). -/
def rowHasTh (row : List Cell) : Bool :=
  row.any (fun c => c.isHeader)

/-- The `<td>` cells of a row (`table_row.find_all('td')`). -/
def rowTds (row : List Cell) : List Cell :=
  row.filter (fun c => !c.isHeader)

/-- The body of the downstream-table loop of `ArrisSB6183.parse_modem`
for one data row: read fixed cell offsets, strip unit suffixes, convert,
and build the point. Returns the point together with the stripped SNR
string this iteration leaves in the local variable `snr`. -/
def arrisDownRow (current_ns : String) (row : List Cell) :
    Except PyErr (ArrisPoint × String) := do
  let row_columns := rowTds row
  let c0 ← pyIndex row_columns 0
  let channel := pyStrip (cellText c0)
  let c3 ← pyIndex row_columns 3
  let channel_id := pyStrip (cellText c3)
  let c4 ← pyIndex row_columns 4
  let frequency := pyStrip (pyReplace (cellText c4) " Hz" "")
  let c5 ← pyIndex row_columns 5
  let power := pyStrip (pyReplace (cellText c5) " dBmV" "")
  let c6 ← pyIndex row_columns 6
  let snr := pyStrip (pyReplace (cellText c6) " dB" "")
  let c7 ← pyIndex row_columns 7
  let corrected := pyStrip (cellText c7)
  let c8 ← pyIndex row_columns 8
  let uncorrectables := pyStrip (cellText c8)
  let channel_id_v ← pyInt channel_id
  let frequency_v ← pyInt frequency
  let power_v ← pyFloatParse power
  let snr_v ← pyFloatParse snr
  let corrected_v ← pyInt corrected
  let uncorrectables_v ← pyInt uncorrectables
  let channel_v ← pyInt channel
  return (⟨current_ns, channel_v, "downstream", channel_id_v, frequency_v,
    power_v, snr_v, some corrected_v, some uncorrectables_v⟩, snr)

/-- The downstream-table loop of `ArrisSB6183.parse_modem`: skip header
rows, process data rows, and append each point. Returns the accumulated
series and the final value of the local variable `snr` (the stripped SNR
string of the last data row; `Option.none` when never assigned). -/
def arrisDownLoop (current_ns : String) :
    List (List Cell) → List ArrisPoint → Option String →
    Except PyErr (List ArrisPoint × Option String)
  | [], acc, snrVar => .ok (acc, snrVar)
  | row :: rest, acc, snrVar =>
    if rowHasTh row then arrisDownLoop current_ns rest acc snrVar
    else do
      let r ← arrisDownRow current_ns row
      arrisDownLoop current_ns rest (acc ++ [r.1]) (some r.2)

/-- The body of the upstream-table loop of `ArrisSB6183.parse_modem` for
one data row. Note that the `snr` variable is never assigned here:
`float(snr)` re-reads whatever the downstream loop last left in it
(`snrVar`), and raises `NameError` if the downstream loop processed no
data row. -/
def arrisUpRow (current_ns : String) (snrVar : Option String)
    (row : List Cell) : Except PyErr ArrisPoint := do
  let row_columns := rowTds row
  let c0 ← pyIndex row_columns 0
  let channel := pyStrip (cellText c0)
  let c3 ← pyIndex row_columns 3
  let channel_id := pyStrip (cellText c3)
  let c5 ← pyIndex row_columns 5
  let frequency := pyStrip (pyReplace (cellText c5) " Hz" "")
  let c6 ← pyIndex row_columns 6
  let power := pyStrip (pyReplace (cellText c6) " dBmV" "")
  let channel_id_v ← pyInt channel_id
  let frequency_v ← pyInt frequency
  let power_v ← pyFloatParse power
  let snrStr ← match snrVar with
    | some s => Except.ok s
    | Option.none => Except.error PyErr.nameError
  let snr_v ← pyFloatParse snrStr
  let channel_v ← pyInt channel
  return ⟨current_ns, channel_v, "upstream", channel_id_v, frequency_v,
    power_v, snr_v, Option.none, Option.none⟩

/-- The upstream-table loop of `ArrisSB6183.parse_modem`: skip header
rows, process data rows, and append each point to the shared series. -/
def arrisUpLoop (current_ns : String) :
    List (List Cell) → List ArrisPoint → Option String →
    Except PyErr (List ArrisPoint)
  | [], acc, _ => .ok acc
  | row :: rest, acc, snrVar =>
    if rowHasTh row then arrisUpLoop current_ns rest acc snrVar
    else do
      let point ← arrisUpRow current_ns snrVar row
      arrisUpLoop current_ns rest (acc ++ [point]) snrVar

/-- `ArrisSB6183.parse_modem` after the fetch: the downstream loop runs
over the rows of the third table (skipping the first two rows), then the
upstream loop over the rows of the fourth table (again skipping two),
appending into the same `series` list. A missing table index raises
`IndexError`. -/
def arrisParse (page : Page) (current_ns : String) :
    Except PyErr (List ArrisPoint) := do
  let t2 ← pyIndex page.tables 2
  let r ← arrisDownLoop current_ns (t2.rows.drop 2) [] Option.none
  let t3 ← pyIndex page.tables 3
  arrisUpLoop current_ns (t3.rows.drop 2) r.1 r.2

/-! ## Claim-side predicates

These definitions state, in the claims' own terms, the properties the
theorems below compare against the embedded code. -/

/-- The row-filtering condition the spec states for a downstream data row
of the class-selected strategy: the lock-status cell is exactly
`"Locked"` and the channel-label cell is not `"Total"`. -/
def keepDownRow (row : List (Option String)) : Bool :=
  decide (row.get? 1 = some (some "Locked")) &&
    decide (row.headD Option.none ≠ some "Total")

/-- The row-filtering condition for an upstream data row: the lock-status
cell is exactly `"Locked"`. -/
def keepUpRow (row : List (Option String)) : Bool :=
  decide (row.get? 1 = some (some "Locked"))

/-- The spec's description of the field section of a line-protocol line:
the `name=value` renderings of exactly those fields whose value is
present, in declared field order. -/
def renderedFields (fieldPairs : List (String × PyVal)) : List String :=
  (fieldPairs.filter (fun f => decide (f.2 ≠ PyVal.none))).map
    (fun f => f.1 ++ "=" ++ pyValStr f.2)

/-- A field value that is absent or an integer. -/
def intShaped (v : PyVal) : Prop :=
  v = PyVal.none ∨ ∃ n : ℤ, v = PyVal.int n

/-- A field value that is absent or a float. -/
def floatShaped (v : PyVal) : Prop :=
  v = PyVal.none ∨ ∃ f : PyFloat, v = PyVal.float f

/-- Shape invariant for a downstream record: integer-ish fields absent or
integers, measurement fields absent or floats. -/
def dsShaped (ch : DownstreamChannel) : Prop :=
  intShaped ch.channel_id ∧ floatShaped ch.frequency ∧ floatShaped ch.power ∧
    floatShaped ch.snr ∧ intShaped ch.corrected ∧ intShaped ch.uncorrectables

/-- Shape invariant for an upstream record. -/
def usShaped (ch : UpstreamChannel) : Prop :=
  intShaped ch.channel_id ∧ floatShaped ch.frequency ∧ floatShaped ch.power ∧
    floatShaped ch.snr

/-- A document as BeautifulSoup actually delivers it: the `.string` of a
cell is never the empty string (a cell with no text has `.string = None`),
so every present cell content is nonempty. -/
def wfPage (page : Page) : Prop :=
  ∀ t ∈ page.tables, ∀ row ∈ t.rows, ∀ c ∈ row, c.content ≠ some ""

/-! ## Concrete fixtures used by witnesses and counterexamples -/

/-- A `<td>` cell holding the given text. -/
def tdCell (s : String) : Cell :=
  ⟨false, some s⟩

/-- A `<th>` cell holding the given text. -/
def thCell (s : String) : Cell :=
  ⟨true, some s⟩

/-- The MB7621 login page (its title is
`Motorola Cable Modem : Login`). -/
def mb7621LoginPage : Page :=
  ⟨"Motorola Cable Modem : Login", []⟩

/-- Header row of an MB7621 downstream status table. -/
def motoDsHeaderRow : List Cell :=
  [tdCell mb7621Sentinel, tdCell "Lock Status", tdCell "Modulation",
   tdCell "Channel ID", tdCell "Freq. (MHz)", tdCell "Pwr (dBmV)",
   tdCell "SNR (dB)", tdCell "Corrected", tdCell "Uncorrected"]

/-- A downstream data row of an MB7621 status table. -/
def motoDsDataRow (lk cid fr pw sn co un : String) : List Cell :=
  [tdCell "1", tdCell lk, tdCell "QAM256", tdCell cid, tdCell fr,
   tdCell pw, tdCell sn, tdCell co, tdCell un]

/-- Header row of an MB7621 upstream status table. -/
def motoUsHeaderRow : List Cell :=
  [tdCell mb7621Sentinel, tdCell "Lock Status", tdCell "Channel Type",
   tdCell "Channel ID", tdCell "Symb. Rate (Ksym/sec)", tdCell "Freq. (MHz)",
   tdCell "Pwr (dBmV)"]

/-- An upstream data row of an MB7621 status table. -/
def motoUsDataRow (lk cid sr fr pw : String) : List Cell :=
  [tdCell "1", tdCell lk, tdCell "SC-QAM", tdCell cid, tdCell sr,
   tdCell fr, tdCell pw]

/-- A well-formed MB7621 status page: one downstream table (with one
locked row, one unlocked row and a `Total` summary row) and one upstream
table with one locked row. -/
def motoStatusPage : Page :=
  ⟨"Motorola Cable Modem : Connection",
   [⟨["moto-table-content"],
     [motoDsHeaderRow,
      motoDsDataRow "Locked" "2" "789.0" "8.4" "39.8" "4" "0",
      motoDsDataRow "Not Locked" "3" "795.0" "8.0" "39.0" "0" "0",
      [tdCell "Total", tdCell "Locked", ⟨false, Option.none⟩,
       ⟨false, Option.none⟩, ⟨false, Option.none⟩, ⟨false, Option.none⟩,
       ⟨false, Option.none⟩, tdCell "10", tdCell "20"]]⟩,
    ⟨["moto-table-content"],
     [motoUsHeaderRow,
      motoUsDataRow "Locked" "3" "5120" "32.4" "37.4"]⟩]⟩

/-- The MB7621 server fixture from the test suite: login page until a
POST with the right credentials, then the status page. -/
def mb7621Server : Server :=
  ⟨mb7621LoginPage, motoStatusPage,
   fun username password => username = "username" && password = "pass1234"⟩

/-- A page whose only table does not carry the `moto-table-content`
class: the class selector of the MB7621 parser matches no table here. -/
def c2CexPage : Page :=
  ⟨"Motorola Cable Modem : Connection",
   [⟨["other-table"], [[tdCell "data"]]⟩]⟩

/-- A page with only two tables: the Arris parser's fixed table index 2
does not exist. -/
def arrisShortPage : Page :=
  ⟨"Status", [⟨[], []⟩, ⟨[], []⟩]⟩

/-- A `moto-table-content` table whose sentinel header row has eight
columns (spec scenario C: 8 columns where 9 were expected). -/
def c5EightColTable : HTable :=
  ⟨["moto-table-content"],
   [[tdCell mb7621Sentinel, tdCell "Lock Status", tdCell "Modulation",
     tdCell "Channel ID", tdCell "Freq. (MHz)", tdCell "Pwr (dBmV)",
     tdCell "SNR (dB)", tdCell "Corrected"],
    motoDsDataRow "Locked" "2" "789.0" "8.4" "39.8" "4" "0"]⟩

/-- A page containing the eight-column sentinel table. -/
def c5CexPage : Page :=
  ⟨"Motorola Cable Modem : Connection", [c5EightColTable]⟩

/-- A nine-column sentinel table whose trailing header labels do not
match the expected downstream list. -/
def c5BadLabelTable : HTable :=
  ⟨["moto-table-content"],
   [[tdCell mb7621Sentinel, tdCell "Lock Status", tdCell "Modulation",
     tdCell "Channel ID", tdCell "Frequency", tdCell "Pwr (dBmV)",
     tdCell "SNR (dB)", tdCell "Corrected", tdCell "Uncorrected"],
    motoDsDataRow "Locked" "2" "789.0" "8.4" "39.8" "4" "0"]⟩

/-- An MB7621 page whose only locked downstream row carries a negative
channel ID and an SNR cell reading `inf`. -/
def c9CexPage : Page :=
  ⟨"Motorola Cable Modem : Connection",
   [⟨["moto-table-content"],
     [motoDsHeaderRow,
      motoDsDataRow "Locked" "-1" "789.0" "8.4" "inf" "4" "0"]⟩]⟩

/-- An Arris downstream data row (cells at the offsets
`parse_modem` reads). -/
def arrisDsDataRow (ch cid fr pw sn co un : String) : List Cell :=
  [tdCell ch, tdCell "Locked", tdCell "QAM256", tdCell cid, tdCell fr,
   tdCell pw, tdCell sn, tdCell co, tdCell un]

/-- An Arris upstream data row. -/
def arrisUsDataRow (ch cid sr fr pw : String) : List Cell :=
  [tdCell ch, tdCell "Locked", tdCell "ATDMA", tdCell cid, tdCell sr,
   tdCell fr, tdCell pw]

/-- An Arris status page with one downstream and one upstream data row. -/
def arrisStatusPage : Page :=
  ⟨"Status",
   [⟨[], []⟩, ⟨[], []⟩,
    ⟨[], [[thCell "Downstream Bonded Channels"], [thCell "Channel"],
          arrisDsDataRow "1" "2" "789000000 Hz" "8.4 dBmV" "39.8 dB" "4" "0"]⟩,
    ⟨[], [[thCell "Upstream Bonded Channels"], [thCell "Channel"],
          arrisUsDataRow "1" "3" "5120" "32400000 Hz" "37.5 dBmV"]⟩]⟩

/-- An Arris status page whose downstream table has no data rows while
the upstream table has one. -/
def arrisNoDownPage : Page :=
  ⟨"Status",
   [⟨[], []⟩, ⟨[], []⟩,
    ⟨[], [[thCell "Downstream Bonded Channels"], [thCell "Channel"],
          [thCell "No channels"]]⟩,
    ⟨[], [[thCell "Upstream Bonded Channels"], [thCell "Channel"],
          arrisUsDataRow "1" "3" "5120" "32400000 Hz" "37.5 dBmV"]⟩]⟩

/-! ## Shared inversion lemmas -/

theorem except_bind_ok {ε α β : Type} {m : Except ε α} {f : α → Except ε β}
    {b : β} (h : m >>= f = .ok b) : ∃ a, m = .ok a ∧ f a = .ok b := by
  cases m with
  | error e => simp [Bind.bind, Except.bind] at h
  | ok a => exact ⟨a, rfl, by simpa [Bind.bind, Except.bind] using h⟩

theorem except_map_ok {ε α β : Type} {m : Except ε α} {f : α → β} {b : β}
    (h : Except.map f m = .ok b) : ∃ a, m = .ok a ∧ f a = b := by
  cases m with
  | error e => simp [Except.map] at h
  | ok a => exact ⟨a, rfl, by simpa [Except.map] using h⟩

theorem bind_ok_eq {ε α β : Type} (a : α) (f : α → Except ε β) :
    (Except.ok a >>= f) = f a := rfl

theorem bind_error_eq {ε α β : Type} (e : ε) (f : α → Except ε β) :
    ((Except.error e : Except ε α) >>= f) = .error e := rfl

theorem map_ok_eq {ε α β : Type} (f : α → β) (a : α) :
    Except.map f (.ok a : Except ε α) = .ok (f a) := rfl

theorem map_error_eq {ε α β : Type} (f : α → β) (e : ε) :
    Except.map f (.error e : Except ε α) = .error e := rfl

theorem pure_eq_ok {ε β : Type} (b : β) : (pure b : Except ε β) = .ok b := rfl

theorem mapM_nil_eq {ε α β : Type} (f : α → Except ε β) :
    List.mapM f [] = .ok [] := rfl

theorem downstream_ok_inv {details : List (Option String)}
    {ch : DownstreamChannel} (h : downstream details = .ok ch) :
    ∃ c0 c1 c2 c3 c4 c5,
      pyIndex details 0 = .ok c0 ∧ str_map c0 pyIntV = .ok ch.channel_id ∧
      pyIndex details 1 = .ok c1 ∧ str_map c1 pyFloatV = .ok ch.frequency ∧
      pyIndex details 2 = .ok c2 ∧ str_map c2 pyFloatV = .ok ch.power ∧
      pyIndex details 3 = .ok c3 ∧ str_map c3 pyFloatV = .ok ch.snr ∧
      pyIndex details 4 = .ok c4 ∧ str_map c4 pyIntV = .ok ch.corrected ∧
      pyIndex details 5 = .ok c5 ∧ str_map c5 pyIntV = .ok ch.uncorrectables := by
  unfold downstream at h
  obtain ⟨c0, h0, h⟩ := except_bind_ok h
  obtain ⟨v0, hv0, h⟩ := except_bind_ok h
  obtain ⟨c1, h1, h⟩ := except_bind_ok h
  obtain ⟨v1, hv1, h⟩ := except_bind_ok h
  obtain ⟨c2, h2, h⟩ := except_bind_ok h
  obtain ⟨v2, hv2, h⟩ := except_bind_ok h
  obtain ⟨c3, h3, h⟩ := except_bind_ok h
  obtain ⟨v3, hv3, h⟩ := except_bind_ok h
  obtain ⟨c4, h4, h⟩ := except_bind_ok h
  obtain ⟨v4, hv4, h⟩ := except_bind_ok h
  obtain ⟨c5, h5, h⟩ := except_bind_ok h
  obtain ⟨v5, hv5, h⟩ := except_bind_ok h
  have hch : ch = ⟨v0, v1, v2, v3, v4, v5⟩ := by
    simpa [pure, Except.pure] using h.symm
  subst hch
  exact ⟨c0, c1, c2, c3, c4, c5, h0, hv0, h1, hv1, h2, hv2, h3, hv3, h4, hv4, h5, hv5⟩

theorem upstream_ok_inv {details : List (Option String)}
    {ch : UpstreamChannel} (h : upstream details = .ok ch) :
    ∃ c0 c1 c2 c3,
      pyIndex details 0 = .ok c0 ∧ str_map c0 pyIntV = .ok ch.channel_id ∧
      pyIndex details 1 = .ok c1 ∧ str_map c1 pyFloatV = .ok ch.frequency ∧
      pyIndex details 2 = .ok c2 ∧ str_map c2 pyFloatV = .ok ch.power ∧
      pyIndex details 3 = .ok c3 ∧ str_map c3 pyFloatV = .ok ch.snr := by
  unfold upstream at h
  obtain ⟨c0, h0, h⟩ := except_bind_ok h
  obtain ⟨v0, hv0, h⟩ := except_bind_ok h
  obtain ⟨c1, h1, h⟩ := except_bind_ok h
  obtain ⟨v1, hv1, h⟩ := except_bind_ok h
  obtain ⟨c2, h2, h⟩ := except_bind_ok h
  obtain ⟨v2, hv2, h⟩ := except_bind_ok h
  obtain ⟨c3, h3, h⟩ := except_bind_ok h
  obtain ⟨v3, hv3, h⟩ := except_bind_ok h
  have hch : ch = ⟨v0, v1, v2, v3⟩ := by
    simpa [pure, Except.pure] using h.symm
  subst hch
  exact ⟨c0, c1, c2, c3, h0, hv0, h1, hv1, h2, hv2, h3, hv3⟩

theorem str_map_absent {details : List (Option String)} {k : ℕ}
    {c : Option String} {fn : String → Except PyErr PyVal} {v : PyVal}
    (hidx : pyIndex details k = .ok c) (hsm : str_map c fn = .ok v)
    (hget : details.get? k = some Option.none) : v = PyVal.none := by
  rw [pyIndex, hget] at hidx
  have hc : c = Option.none := by
    simpa using (Except.ok.inj hidx).symm
  subst hc
  simpa [str_map] using (Except.ok.inj hsm).symm

/-! ## Claim C1: at most one re-authentication attempt per poll cycle -/

/-- **C1.** In every poll cycle, the orchestrator performs at most two
status-page fetches and at most one login POST; and when both the first
and the re-fetched page signal that login is required, the cycle is
exactly fetch → authenticate → re-fetch and then fails with
`AuthenticationFailed` — it never retries further. -/
theorem c1_single_reauth (needsAuth : Page → Bool) (doPost : Bool)
    (pages : ℕ → Page) (parse : Page → Except PyErr ParseState) (now : ℕ) :
    (processModemStatus needsAuth doPost pages parse now).events.count Event.fetch ≤ 2 ∧
    (processModemStatus needsAuth doPost pages parse now).events.count Event.post ≤ 1 ∧
    (needsAuth (pages 0) = true → needsAuth (pages 1) = true →
      processModemStatus needsAuth doPost pages parse now =
        ⟨[Event.fetch] ++ (if doPost then [Event.post] else []) ++ [Event.fetch],
          Except.error PyErr.authenticationFailed⟩) := by
  cases h0 : needsAuth (pages 0) <;> cases h1 : needsAuth (pages 1) <;>
    cases doPost <;> simp [processModemStatus, h0, h1] <;> decide

/-- Witness for C1: with credentials supplied and a server that keeps
returning the login page, the cycle does exactly two fetches and one POST
and fails with `AuthenticationFailed`. -/
theorem c1_witness :
    processModemStatus mb7621NeedsAuth true (fun _ => mb7621LoginPage)
      mb7621ParseStatusPage 5 =
      ⟨[Event.fetch, Event.post, Event.fetch],
        Except.error PyErr.authenticationFailed⟩ := by
  have h := (c1_single_reauth mb7621NeedsAuth true (fun _ => mb7621LoginPage)
    mb7621ParseStatusPage 5).2.2 (by decide) (by decide)
  simpa using h

/-! ## Claim C6: no credentials, login required → immediate failure, no POST -/

/-- **C6.** When no credentials were supplied and the modem serves a page
signalling that login is required, the MB7621 cycle fails with
`AuthenticationFailed` and no login POST is ever sent. -/
theorem c6_no_credentials (srv : Server) (now : ℕ)
    (h : mb7621NeedsAuth srv.loginPage = true) :
    mb7621ServerProcess Option.none srv now =
      ⟨[Event.fetch, Event.fetch], Except.error PyErr.authenticationFailed⟩ ∧
    (mb7621ServerProcess Option.none srv now).events.count Event.post = 0 := by
  have hmain : mb7621ServerProcess Option.none srv now =
      ⟨[Event.fetch, Event.fetch], Except.error PyErr.authenticationFailed⟩ := by
    simp [mb7621ServerProcess, srvPage, h]
  refine ⟨hmain, ?_⟩
  rw [hmain]
  decide

/-- Witness for C6: the test-suite server fixture with no credentials. -/
theorem c6_witness :
    mb7621ServerProcess Option.none mb7621Server 7 =
      ⟨[Event.fetch, Event.fetch], Except.error PyErr.authenticationFailed⟩ ∧
    (mb7621ServerProcess Option.none mb7621Server 7).events.count Event.post = 0 :=
  c6_no_credentials mb7621Server 7 (by decide)

/-! ## Claim C3: empty/absent cells map to absent fields -/

/-- **C3.** In every channel record built by `downstream`/`upstream`, a
cell whose extracted text is absent (`None`, as BeautifulSoup delivers for
an empty cell) yields the absent field value `PyVal.none` in the
corresponding position — never `0`, `0.0`, `NaN` or any other default. -/
theorem c3_absent_cell :
    (∀ (details : List (Option String)) (ch : DownstreamChannel),
      downstream details = .ok ch →
        (details.get? 0 = some Option.none → ch.channel_id = PyVal.none) ∧
        (details.get? 1 = some Option.none → ch.frequency = PyVal.none) ∧
        (details.get? 2 = some Option.none → ch.power = PyVal.none) ∧
        (details.get? 3 = some Option.none → ch.snr = PyVal.none) ∧
        (details.get? 4 = some Option.none → ch.corrected = PyVal.none) ∧
        (details.get? 5 = some Option.none → ch.uncorrectables = PyVal.none)) ∧
    (∀ (details : List (Option String)) (ch : UpstreamChannel),
      upstream details = .ok ch →
        (details.get? 0 = some Option.none → ch.channel_id = PyVal.none) ∧
        (details.get? 1 = some Option.none → ch.frequency = PyVal.none) ∧
        (details.get? 2 = some Option.none → ch.power = PyVal.none) ∧
        (details.get? 3 = some Option.none → ch.snr = PyVal.none)) := by
  constructor
  · intro details ch h
    obtain ⟨c0, c1, c2, c3, c4, c5, h0, hv0, h1, hv1, h2, hv2, h3, hv3, h4, hv4, h5, hv5⟩ :=
      downstream_ok_inv h
    exact ⟨fun hg => str_map_absent h0 hv0 hg, fun hg => str_map_absent h1 hv1 hg,
      fun hg => str_map_absent h2 hv2 hg, fun hg => str_map_absent h3 hv3 hg,
      fun hg => str_map_absent h4 hv4 hg, fun hg => str_map_absent h5 hv5 hg⟩
  · intro details ch h
    obtain ⟨c0, c1, c2, c3, h0, hv0, h1, hv1, h2, hv2, h3, hv3⟩ := upstream_ok_inv h
    exact ⟨fun hg => str_map_absent h0 hv0 hg, fun hg => str_map_absent h1 hv1 hg,
      fun hg => str_map_absent h2 hv2 hg, fun hg => str_map_absent h3 hv3 hg⟩

/-- Witness for C3: a row with an absent frequency cell and an absent SNR
cell produces a record whose `frequency` and `snr` are absent (while the
present cells convert normally). -/
theorem c3_witness :
    downstream [some "1", Option.none, some "2.5", Option.none, some "0", some "3"] =
      .ok ⟨PyVal.int 1, PyVal.none, PyVal.float (.finite (mkRat 25 10)),
        PyVal.none, PyVal.int 0, PyVal.int 3⟩ ∧
    (⟨PyVal.int 1, PyVal.none, PyVal.float (.finite (mkRat 25 10)),
      PyVal.none, PyVal.int 0, PyVal.int 3⟩ : DownstreamChannel).snr = PyVal.none :=
  ⟨by decide,
    ((c3_absent_cell.1
      [some "1", Option.none, some "2.5", Option.none, some "0", some "3"]
      ⟨PyVal.int 1, PyVal.none, PyVal.float (.finite (mkRat 25 10)),
        PyVal.none, PyVal.int 0, PyVal.int 3⟩ (by decide)).2.2.2.1) (by decide)⟩

/-! ## Claim C7: line-protocol layout -/

theorem influx_fields_foldl (fieldPairs : List (String × PyVal))
    (acc : List String) :
    fieldPairs.foldl (fun acc f => if f.2 = PyVal.none then acc
        else acc ++ [f.1 ++ "=" ++ pyValStr f.2]) acc
      = acc ++ renderedFields fieldPairs := by
  induction fieldPairs generalizing acc with
  | nil => simp [renderedFields]
  | cons p rest ih =>
    by_cases hp : p.2 = PyVal.none <;>
      simp [renderedFields, List.filter_cons, hp, ih, List.append_assoc]

theorem formatChannel_split (m cns : String) (fs : List (String × PyVal))
    (tags : List (String × String)) :
    formatChannel m cns fs tags =
      m ++ "," ++ String.intercalate "," (tags.map (fun t => t.1 ++ "=" ++ t.2)) ++
        " " ++ String.intercalate "," (renderedFields fs) ++ " " ++ cns := by
  simp only [formatChannel, influx_fields_foldl fs [], List.nil_append]

/-- **C7.** In line-protocol output the i-th downstream line (and the j-th
upstream line, placed after all downstream lines) carries the channel tag
`i + 1` — the 1-based position in its direction's sequence, independent of
the record's `channel_id` field; and each line's field section consists of
exactly the fields whose value is present, rendered in declared field
order (`renderedFields`), absent fields being omitted entirely. -/
theorem c7_line_shape (ds : List DownstreamChannel)
    (us : List UpstreamChannel) (ns : String) :
    (∀ i (h : i < ds.length),
      (influxLines ds us ns).get? i =
        some (formatChannel "cable_modem" ns (dsFieldPairs (ds.get ⟨i, h⟩))
          [("direction", "downstream"), ("channel", toString (i + 1))])) ∧
    (∀ j (h : j < us.length),
      (influxLines ds us ns).get? (ds.length + j) =
        some (formatChannel "cable_modem" ns (usFieldPairs (us.get ⟨j, h⟩))
          [("direction", "upstream"), ("channel", toString (j + 1))])) ∧
    (∀ (m cns : String) (fs : List (String × PyVal))
        (tags : List (String × String)),
      formatChannel m cns fs tags =
        m ++ "," ++ String.intercalate "," (tags.map (fun t => t.1 ++ "=" ++ t.2)) ++
          " " ++ String.intercalate "," (renderedFields fs) ++ " " ++ cns) := by
  refine ⟨?_, ?_, fun m cns fs tags => formatChannel_split m cns fs tags⟩
  · intro i h
    rw [influxLines, List.get?_append
      (by simpa [List.enum_length] using h),
      List.get?_map, List.get?_enum, List.get?_eq_get h]
    rfl
  · intro j h
    rw [influxLines, List.get?_append_right
      (by simp [List.enum_length]),
      List.get?_map, List.get?_enum]
    simp only [List.length_map, List.enum_length, Nat.add_sub_cancel_left,
      List.get?_eq_get h]
    rfl

/-- Witness for C7: two downstream channels and one upstream channel; the
second downstream line is tagged `channel=2` even though its `channel_id`
field is 40, and its absent SNR field is omitted. -/
theorem c7_witness :
    (influxLines
      [⟨PyVal.int 7, PyVal.none, PyVal.none, PyVal.none, PyVal.none, PyVal.none⟩,
       ⟨PyVal.int 40, PyVal.none, PyVal.none, PyVal.none, PyVal.int 91, PyVal.int 53⟩]
      [⟨PyVal.int 3, PyVal.none, PyVal.none, PyVal.none⟩]
      "1700000000000000000").get? 1 =
      some (formatChannel "cable_modem" "1700000000000000000"
        (dsFieldPairs ⟨PyVal.int 40, PyVal.none, PyVal.none, PyVal.none,
          PyVal.int 91, PyVal.int 53⟩)
        [("direction", "downstream"), ("channel", toString (1 + 1))]) :=
  (c7_line_shape
    [⟨PyVal.int 7, PyVal.none, PyVal.none, PyVal.none, PyVal.none, PyVal.none⟩,
     ⟨PyVal.int 40, PyVal.none, PyVal.none, PyVal.none, PyVal.int 91, PyVal.int 53⟩]
    [⟨PyVal.int 3, PyVal.none, PyVal.none, PyVal.none⟩]
    "1700000000000000000").1 1 (by decide)

/-! ## Claim C8: one capture timestamp per cycle, shared by every line -/

theorem formatChannel_timestamp (m cns : String)
    (fs : List (String × PyVal)) (tags : List (String × String)) :
    formatChannel m cns fs tags =
      (m ++ "," ++ String.intercalate "," (tags.map (fun t => t.1 ++ "=" ++ t.2)) ++
        " " ++ String.intercalate "," (renderedFields fs)) ++ (" " ++ cns) := by
  rw [formatChannel_split, String.append_assoc]

theorem influx_line_timestamp (ds : List DownstreamChannel)
    (us : List UpstreamChannel) (ns : String) :
    ∀ line ∈ influxLines ds us ns, ∃ p, line = p ++ (" " ++ ns) := by
  intro line hline
  rw [influxLines] at hline
  rcases List.mem_append.mp hline with hm | hm <;>
    obtain ⟨x, _, rfl⟩ := List.mem_map.mp hm <;>
    exact ⟨_, formatChannel_timestamp _ _ _ _⟩

/-- **C8.** In every successful poll cycle the capture time is sampled
exactly once, after authentication resolves and immediately before
extraction; the recorded time is the single sampled clock value, and
every line-protocol line of the cycle ends with that one timestamp (it is
never re-sampled per channel). -/
theorem c8_single_timestamp (needsAuth : Page → Bool) (doPost : Bool)
    (pages : ℕ → Page) (parse : Page → Except PyErr ParseState) (now : ℕ)
    (st : ParseState) (t : ℕ)
    (h : (processModemStatus needsAuth doPost pages parse now).result = .ok (st, t)) :
    t = now ∧
    (processModemStatus needsAuth doPost pages parse now).events.count Event.sample = 1 ∧
    (∃ pre, (processModemStatus needsAuth doPost pages parse now).events =
        pre ++ [Event.sample, Event.parse] ∧
      Event.sample ∉ pre ∧ Event.parse ∉ pre) ∧
    (∀ line ∈ influxLines st.downstream_channels st.upstream_channels (nsString t),
      ∃ p, line = p ++ (" " ++ nsString t)) := by
  have hlines :=
    influx_line_timestamp st.downstream_channels st.upstream_channels (nsString t)
  cases h0 : needsAuth (pages 0) with
  | false =>
    simp only [processModemStatus, h0, Bool.false_eq_true, if_false] at h ⊢
    obtain ⟨st', hok, heq⟩ := except_map_ok h
    obtain ⟨rfl, rfl⟩ : st' = st ∧ now = t := by
      refine ⟨congrArg Prod.fst heq, congrArg Prod.snd heq⟩
    exact ⟨rfl, by decide, ⟨[Event.fetch], by decide, by simp, by simp⟩, hlines⟩
  | true =>
    cases h1 : needsAuth (pages 1) with
    | true => simp [processModemStatus, h0, h1] at h
    | false =>
      simp only [processModemStatus, h0, h1, Bool.false_eq_true, if_true, if_false] at h ⊢
      obtain ⟨st', hok, heq⟩ := except_map_ok h
      obtain ⟨rfl, rfl⟩ : st' = st ∧ now = t := by
        refine ⟨congrArg Prod.fst heq, congrArg Prod.snd heq⟩
      cases doPost with
      | false =>
        exact ⟨rfl, by decide,
          ⟨[Event.fetch, Event.fetch], by decide, by simp, by simp⟩, hlines⟩
      | true =>
        exact ⟨rfl, by decide,
          ⟨[Event.fetch, Event.post, Event.fetch], by decide, by simp, by simp⟩,
          hlines⟩

/-- Witness for C8: a cycle against a server that needs no login; the
sampled time is the clock value 1700000000 and the single parsed table
yields lines all ending in its nanosecond timestamp. -/
theorem c8_witness :
    ∃ st : ParseState,
      (processModemStatus mb7621NeedsAuth false (fun _ => motoStatusPage)
        mb7621ParseStatusPage 1700000000).result = .ok (st, 1700000000) ∧
      (1700000000 = 1700000000 ∧
        (processModemStatus mb7621NeedsAuth false (fun _ => motoStatusPage)
          mb7621ParseStatusPage 1700000000).events.count Event.sample = 1 ∧
        (∃ pre, (processModemStatus mb7621NeedsAuth false (fun _ => motoStatusPage)
            mb7621ParseStatusPage 1700000000).events =
            pre ++ [Event.sample, Event.parse] ∧
          Event.sample ∉ pre ∧ Event.parse ∉ pre) ∧
        (∀ line ∈ influxLines st.downstream_channels st.upstream_channels
            (nsString 1700000000),
          ∃ p, line = p ++ (" " ++ nsString 1700000000))) := by
  refine ⟨⟨[⟨PyVal.int 2, PyVal.float (.finite (mkRat 7890 10)),
        PyVal.float (.finite (mkRat 84 10)), PyVal.float (.finite (mkRat 398 10)),
        PyVal.int 4, PyVal.int 0⟩],
      [⟨PyVal.int 3, PyVal.float (.finite (mkRat 324 10)),
        PyVal.float (.finite (mkRat 374 10)), PyVal.none⟩],
      []⟩, ?_, ?_⟩
  · decide
  · exact c8_single_timestamp mb7621NeedsAuth false (fun _ => motoStatusPage)
      mb7621ParseStatusPage 1700000000 _ 1700000000 (by decide)

/-! ## Claim C4: the lock-status / Total row filter -/

/-- **C4.** For the class-selected (MB7621) strategy, on any run of the
downstream (resp. upstream) row loop over rows that are long enough to
reach the lock-status cell, the channels appended are exactly the parses
of the rows whose lock-status cell is the literal `"Locked"` — and, for
the downstream table, whose channel-label cell is not `"Total"` — in
order; a row failing the filter never contributes a record. -/
theorem c4_locked_filter :
    (∀ (rows : List (List (Option String))) (st : ParseState),
      (∀ row ∈ rows, 2 ≤ row.length) →
      mb7621DownRows rows st =
        (List.mapM (fun row => downstream (row.drop 3))
            (rows.filter keepDownRow)).map
          (fun chs =>
            { st with downstream_channels := st.downstream_channels ++ chs })) ∧
    (∀ (rows : List (List (Option String))) (st : ParseState),
      (∀ row ∈ rows, 2 ≤ row.length) →
      mb7621UpRows rows st =
        (List.mapM (fun row => do
              let c3 ← pyIndex row 3
              upstream ([c3] ++ row.drop 5 ++ [Option.none]))
            (rows.filter keepUpRow)).map
          (fun chs =>
            { st with upstream_channels := st.upstream_channels ++ chs })) := by
  constructor
  · intro rows
    induction rows with
    | nil =>
      intro st _
      show Except.ok st = Except.map _ (Except.ok [])
      rw [map_ok_eq]
      simp
    | cons row rest ih =>
      intro st hlen
      have hrow : 2 ≤ row.length := hlen row (by simp)
      have hrest : ∀ r ∈ rest, 2 ≤ r.length := fun r hr => hlen r (by simp [hr])
      have h1lt : 1 < row.length := by omega
      have hc1 : row.get? 1 = some (row.get ⟨1, h1lt⟩) := List.get?_eq_get h1lt
      set c1 := row.get ⟨1, h1lt⟩ with hc1def
      have hidx : pyIndex row 1 = .ok c1 := by rw [pyIndex, hc1]
      by_cases hlock : c1 = some "Locked"
      · by_cases htot : row.head?.getD Option.none = some "Total"
        · have hk : keepDownRow row = false := by
            rw [keepDownRow, hc1]
            simp [htot]
          simp only [mb7621DownRows, hidx, bind_ok_eq, List.headD_eq_head?_getD]
          rw [if_pos (Or.inr htot), List.filter_cons_of_neg (by simp [hk])]
          exact ih st hrest
        · have hk : keepDownRow row = true := by
            rw [keepDownRow, hc1]
            simp [hlock, htot]
          simp only [mb7621DownRows, hidx, bind_ok_eq, List.headD_eq_head?_getD]
          rw [if_neg (by simp [hlock, htot]), List.filter_cons_of_pos hk,
            List.mapM_cons]
          cases hdc : downstream (row.drop 3) with
          | error e => simp [hdc, bind_error_eq, map_error_eq]
          | ok ch =>
            simp only [hdc, bind_ok_eq]
            rw [ih _ hrest]
            cases hmm : List.mapM (fun row => downstream (row.drop 3))
                (rest.filter keepDownRow) with
            | error e => simp [hmm, bind_error_eq, map_error_eq]
            | ok chs =>
              simp [hmm, bind_ok_eq, pure_eq_ok, map_ok_eq, List.append_assoc]
      · have hk : keepDownRow row = false := by
          rw [keepDownRow, hc1]
          simp [hlock]
        simp only [mb7621DownRows, hidx, bind_ok_eq]
        rw [if_pos (Or.inl hlock), List.filter_cons_of_neg (by simp [hk])]
        exact ih st hrest
  · intro rows
    induction rows with
    | nil =>
      intro st _
      show Except.ok st = Except.map _ (Except.ok [])
      rw [map_ok_eq]
      simp
    | cons row rest ih =>
      intro st hlen
      have hrow : 2 ≤ row.length := hlen row (by simp)
      have hrest : ∀ r ∈ rest, 2 ≤ r.length := fun r hr => hlen r (by simp [hr])
      have h1lt : 1 < row.length := by omega
      have hc1 : row.get? 1 = some (row.get ⟨1, h1lt⟩) := List.get?_eq_get h1lt
      set c1 := row.get ⟨1, h1lt⟩ with hc1def
      have hidx : pyIndex row 1 = .ok c1 := by rw [pyIndex, hc1]
      by_cases hlock : c1 = some "Locked"
      · have hk : keepUpRow row = true := by
          rw [keepUpRow, hc1]
          simp [hlock]
        simp only [mb7621UpRows, hidx, bind_ok_eq]
        rw [if_neg (by simp [hlock]), List.filter_cons_of_pos hk, List.mapM_cons]
        cases hdc : pyIndex row 3 with
        | error e => simp [hdc, bind_error_eq, map_error_eq]
        | ok c3 =>
          simp only [hdc, bind_ok_eq]
          cases hup : upstream ([c3] ++ row.drop 5 ++ [Option.none]) with
          | error e => simp [hup, bind_error_eq, map_error_eq]
          | ok ch =>
            simp only [hup, bind_ok_eq]
            rw [ih _ hrest]
            cases hmm : List.mapM (fun row => do
                  let c3 ← pyIndex row 3
                  upstream ([c3] ++ row.drop 5 ++ [Option.none]))
                (rest.filter keepUpRow) with
            | error e => simp [hmm, bind_error_eq, map_error_eq]
            | ok chs =>
              simp [hmm, bind_ok_eq, pure_eq_ok, map_ok_eq, List.append_assoc]
      · have hk : keepUpRow row = false := by
          rw [keepUpRow, hc1]
          simp [hlock]
        simp only [mb7621UpRows, hidx, bind_ok_eq]
        rw [if_pos hlock, List.filter_cons_of_neg (by simp [hk])]
        exact ih st hrest

/-- Witness for C4: a locked row is kept, an unlocked row and a
`Total` summary row are dropped. -/
theorem c4_witness :
    mb7621DownRows
      [[some "1", some "Locked", some "Q", some "2", some "789.0",
        some "8.4", some "39.8", some "4", some "0"],
       [some "1", some "Not Locked", some "Q", some "3", some "795.0",
        some "8.0", some "39.0", some "0", some "0"],
       [some "Total", some "Locked"]] initState =
      Except.ok ⟨[⟨PyVal.int 2, PyVal.float (.finite (mkRat 7890 10)),
        PyVal.float (.finite (mkRat 84 10)), PyVal.float (.finite (mkRat 398 10)),
        PyVal.int 4, PyVal.int 0⟩], [], []⟩ ∧
    mb7621UpRows
      [[some "1", some "Locked", some "S", some "3", some "5120",
        some "32.4", some "37.4"],
       [some "2", some "Unlocked", some "S", some "4", some "5120",
        some "33.0", some "38.0"]] initState =
      Except.ok ⟨[], [⟨PyVal.int 3, PyVal.float (.finite (mkRat 324 10)),
        PyVal.float (.finite (mkRat 374 10)), PyVal.none⟩], []⟩ :=
  ⟨(c4_locked_filter.1 _ _ (by decide)).trans (by decide),
   (c4_locked_filter.2 _ _ (by decide)).trans (by decide)⟩

/-! ## Claim C5: header-mismatch handling -/

/-- **C5, counterexample.** Spec scenario C promises a recoverable warning
for a header column count mismatch (8 columns where 9 were expected), but
the parser processes a page whose sentinel table has an 8-column header
without emitting any warning: the result is a clean success with zero
channels and an empty warning list. -/
theorem c5_counterexample :
    mb7621ParseStatusPage c5CexPage = Except.ok ⟨[], [], []⟩ := by decide

/-- **C5, amended.** A sentinel table with exactly 9 (resp. 7) header
columns whose trailing labels mismatch yields a recoverable warning and
contributes no channels; a sentinel table with any other column count is
skipped silently, with no warning and no channels; in every such case the
table processing returns successfully, so the remaining tables of the
page are still processed. -/
theorem c5_amended :
    (∀ (t : HTable) (st : ParseState),
      parse_table t ≠ [] →
      ((parse_table t).headD []).get? 0 = some (some mb7621Sentinel) →
      ((parse_table t).headD []).length = 9 →
      ((parse_table t).headD []).drop 3 ≠ mb7621DsHeaders.map some →
      mb7621Table t st =
        .ok { st with warnings := st.warnings ++ [mb7621DsWarning] }) ∧
    (∀ (t : HTable) (st : ParseState),
      parse_table t ≠ [] →
      ((parse_table t).headD []).get? 0 = some (some mb7621Sentinel) →
      ((parse_table t).headD []).length = 7 →
      ((parse_table t).headD []).drop 3 ≠ mb7621UsHeaders.map some →
      mb7621Table t st =
        .ok { st with warnings := st.warnings ++ [mb7621UsWarning] }) ∧
    (∀ (t : HTable) (st : ParseState),
      parse_table t ≠ [] →
      ((parse_table t).headD []).get? 0 = some (some mb7621Sentinel) →
      ((parse_table t).headD []).length ≠ 9 →
      ((parse_table t).headD []).length ≠ 7 →
      mb7621Table t st = .ok st) ∧
    (∀ (t : HTable) (ts : List HTable) (st st' : ParseState),
      mb7621Table t st = .ok st' →
      mb7621Tables (t :: ts) st = mb7621Tables ts st') := by
  refine ⟨?_, ?_, ?_, ?_⟩
  · intro t st h1 h2 h3 h4
    have hidx : pyIndex ((parse_table t).headD []) 0 =
        .ok (some mb7621Sentinel) := by rw [pyIndex, h2]
    rw [mb7621Table]
    rw [if_neg h1]
    simp only [hidx, bind_ok_eq]
    rw [if_neg (by simp), if_pos h3, if_pos h4]
  · intro t st h1 h2 h3 h4
    have hidx : pyIndex ((parse_table t).headD []) 0 =
        .ok (some mb7621Sentinel) := by rw [pyIndex, h2]
    rw [mb7621Table]
    rw [if_neg h1]
    simp only [hidx, bind_ok_eq]
    rw [if_neg (by simp), if_neg (by rw [h3]; decide), if_pos h3, if_pos h4]
  · intro t st h1 h2 h3 h4
    have hidx : pyIndex ((parse_table t).headD []) 0 =
        .ok (some mb7621Sentinel) := by rw [pyIndex, h2]
    rw [mb7621Table]
    rw [if_neg h1]
    simp only [hidx, bind_ok_eq]
    rw [if_neg (by simp), if_neg h3, if_neg h4]
  · intro t ts st st' h
    rw [mb7621Tables]
    simp only [h, bind_ok_eq]

/-- Witness for C5 (amended): a nine-column sentinel table with a wrong
label yields exactly the downstream warning and no channels, while the
eight-column sentinel table is skipped silently. -/
theorem c5_witness :
    mb7621Table c5BadLabelTable initState =
      .ok { initState with warnings := initState.warnings ++ [mb7621DsWarning] } ∧
    mb7621Table c5EightColTable initState = .ok initState :=
  ⟨c5_amended.1 c5BadLabelTable initState (by decide) (by decide) (by decide)
      (by decide),
   c5_amended.2.2.1 c5EightColTable initState (by decide) (by decide) (by decide)
      (by decide)⟩

/-! ## Claim C2: behaviour when the requested table does not exist -/

/-- **C2, counterexample.** The class-selected (MB7621) parser, on a page
where the `moto-table-content` selector matches no table, succeeds with
zero channels and no error — the absence of the expected tables is
silently treated as a successful capture, contrary to the claim. -/
theorem c2_counterexample :
    mb7621ParseStatusPage c2CexPage = Except.ok ⟨[], [], []⟩ := by decide

/-- **C2, amended.** For the positional (Arris) strategy a missing table
index does abort the capture with a propagated error (an `IndexError`
when the downstream table index 2 is out of range; some propagated error
when only the upstream table index 3 is missing). For the class-selected
(MB7621) strategy, a page with no `moto-table-content` table parses
successfully with zero channels — there is no `MalformedDocument`
failure. -/
theorem c2_amended :
    (∀ (page : Page) (ns : String), page.tables.length ≤ 2 →
      arrisParse page ns = .error .indexError) ∧
    (∀ (page : Page) (ns : String), page.tables.length = 3 →
      ∃ e, arrisParse page ns = .error e) ∧
    (∀ page : Page,
      page.tables.filter (fun t => motoTableClass ∈ t.classes) = [] →
      mb7621ParseStatusPage page = .ok initState) := by
  refine ⟨?_, ?_, ?_⟩
  · intro page ns h
    have h2 : page.tables.get? 2 = Option.none := List.get?_eq_none.mpr h
    have hidx : pyIndex page.tables 2 = .error .indexError := by rw [pyIndex, h2]
    simp only [arrisParse, hidx, bind_error_eq]
  · intro page ns h
    have hlt : 2 < page.tables.length := by omega
    have h2 : page.tables.get? 2 = some (page.tables.get ⟨2, hlt⟩) :=
      List.get?_eq_get hlt
    have hidx2 : pyIndex page.tables 2 = .ok (page.tables.get ⟨2, hlt⟩) := by
      rw [pyIndex, h2]
    have h3 : page.tables.get? 3 = Option.none := List.get?_eq_none.mpr (by omega)
    have hidx3 : pyIndex page.tables 3 = .error .indexError := by rw [pyIndex, h3]
    simp only [arrisParse, hidx2, bind_ok_eq]
    cases hdl : arrisDownLoop ns ((page.tables.get ⟨2, hlt⟩).rows.drop 2) []
        Option.none with
    | error e => exact ⟨e, by simp [hdl, bind_error_eq]⟩
    | ok r => exact ⟨.indexError, by simp [hdl, bind_ok_eq, hidx3, bind_error_eq]⟩
  · intro page h
    rw [mb7621ParseStatusPage, h]
    rfl

/-- Witness for C2 (amended): a two-table page makes the Arris parse fail
with `IndexError`; a page without the class-selected table makes the
MB7621 parse succeed with zero channels. -/
theorem c2_witness :
    arrisParse arrisShortPage "1" = .error .indexError ∧
    mb7621ParseStatusPage c2CexPage = .ok initState :=
  ⟨c2_amended.1 arrisShortPage "1" (by decide),
   c2_amended.2.2 c2CexPage (by decide)⟩

/-! ## Claim C9: shape of channel-record fields -/

/-- **C9, counterexample.** The parser applies no sign or finiteness
validation: a locked row whose channel-ID cell reads `-1` and whose SNR
cell reads `inf` parses successfully into a record with a negative
`channel_id` and a non-finite `snr`. -/
theorem c9_counterexample :
    mb7621ParseStatusPage c9CexPage =
      Except.ok ⟨[⟨PyVal.int (-1), PyVal.float (.finite (mkRat 7890 10)),
        PyVal.float (.finite (mkRat 84 10)), PyVal.float PyFloat.inf,
        PyVal.int 4, PyVal.int 0⟩], [], []⟩ ∧
    (-1 : ℤ) < 0 :=
  ⟨by decide, by decide⟩

theorem pyIndex_mem {α : Type} {l : List α} {i : ℕ} {a : α}
    (h : pyIndex l i = .ok a) : a ∈ l := by
  rw [pyIndex] at h
  cases hg : l.get? i with
  | none => rw [hg] at h; exact absurd h (by simp)
  | some x =>
    rw [hg] at h
    obtain rfl : x = a := Except.ok.inj h
    exact List.get?_mem hg

theorem str_map_int_shape {v : Option String} {r : PyVal}
    (hv : v ≠ some "") (h : str_map v pyIntV = .ok r) : intShaped r := by
  cases v with
  | none => exact Or.inl (Except.ok.inj h).symm
  | some s =>
    have hs : s ≠ "" := fun he => hv (by rw [he])
    rw [str_map, if_neg hs, pyIntV] at h
    cases hp : pyInt s with
    | error e => rw [hp, map_error_eq] at h; exact absurd h (by simp)
    | ok n =>
      rw [hp, map_ok_eq] at h
      exact Or.inr ⟨n, (Except.ok.inj h).symm⟩

theorem str_map_float_shape {v : Option String} {r : PyVal}
    (hv : v ≠ some "") (h : str_map v pyFloatV = .ok r) : floatShaped r := by
  cases v with
  | none => exact Or.inl (Except.ok.inj h).symm
  | some s =>
    have hs : s ≠ "" := fun he => hv (by rw [he])
    rw [str_map, if_neg hs, pyFloatV] at h
    cases hp : pyFloatParse s with
    | error e => rw [hp, map_error_eq] at h; exact absurd h (by simp)
    | ok f =>
      rw [hp, map_ok_eq] at h
      exact Or.inr ⟨f, (Except.ok.inj h).symm⟩

theorem downstream_shaped {details : List (Option String)}
    {ch : DownstreamChannel} (hwf : ∀ v ∈ details, v ≠ some "")
    (h : downstream details = .ok ch) : dsShaped ch := by
  obtain ⟨c0, c1, c2, c3, c4, c5, h0, hv0, h1, hv1, h2, hv2, h3, hv3, h4, hv4,
    h5, hv5⟩ := downstream_ok_inv h
  exact ⟨str_map_int_shape (hwf _ (pyIndex_mem h0)) hv0,
    str_map_float_shape (hwf _ (pyIndex_mem h1)) hv1,
    str_map_float_shape (hwf _ (pyIndex_mem h2)) hv2,
    str_map_float_shape (hwf _ (pyIndex_mem h3)) hv3,
    str_map_int_shape (hwf _ (pyIndex_mem h4)) hv4,
    str_map_int_shape (hwf _ (pyIndex_mem h5)) hv5⟩

theorem upstream_shaped {details : List (Option String)}
    {ch : UpstreamChannel} (hwf : ∀ v ∈ details, v ≠ some "")
    (h : upstream details = .ok ch) : usShaped ch := by
  obtain ⟨c0, c1, c2, c3, h0, hv0, h1, hv1, h2, hv2, h3, hv3⟩ :=
    upstream_ok_inv h
  exact ⟨str_map_int_shape (hwf _ (pyIndex_mem h0)) hv0,
    str_map_float_shape (hwf _ (pyIndex_mem h1)) hv1,
    str_map_float_shape (hwf _ (pyIndex_mem h2)) hv2,
    str_map_float_shape (hwf _ (pyIndex_mem h3)) hv3⟩

theorem mb7621DownRows_shaped {rows : List (List (Option String))} :
    ∀ (st st' : ParseState),
    (∀ row ∈ rows, ∀ v ∈ row, v ≠ some "") →
    mb7621DownRows rows st = .ok st' →
    (∀ ch ∈ st.downstream_channels, dsShaped ch) →
    (∀ ch ∈ st'.downstream_channels, dsShaped ch) ∧
    st'.upstream_channels = st.upstream_channels := by
  induction rows with
  | nil =>
    intro st st' _ h hst
    obtain rfl : st = st' := Except.ok.inj h
    exact ⟨hst, rfl⟩
  | cons row rest ih =>
    intro st st' hwf h hst
    have hwfrow : ∀ v ∈ row, v ≠ some "" := hwf row (by simp)
    have hwfrest : ∀ r ∈ rest, ∀ v ∈ r, v ≠ some "" :=
      fun r hr => hwf r (by simp [hr])
    rw [mb7621DownRows] at h
    cases hidx : pyIndex row 1 with
    | error e => rw [hidx, bind_error_eq] at h; exact absurd h (by simp)
    | ok c1 =>
      rw [hidx, bind_ok_eq] at h
      split at h
      · exact ih st st' hwfrest h hst
      · obtain ⟨ch, hch, h⟩ := except_bind_ok h
        have hchs : dsShaped ch :=
          downstream_shaped
            (fun v hv => hwfrow v (List.mem_of_mem_drop hv)) hch
        have hnew : ∀ ch' ∈ st.downstream_channels ++ [ch], dsShaped ch' := by
          intro ch' hch'
          rcases List.mem_append.mp hch' with hmem | hmem
          · exact hst ch' hmem
          · obtain rfl : ch' = ch := by simpa using hmem
            exact hchs
        exact ih { st with downstream_channels := st.downstream_channels ++ [ch] }
          st' hwfrest h hnew

theorem mb7621UpRows_shaped {rows : List (List (Option String))} :
    ∀ (st st' : ParseState),
    (∀ row ∈ rows, ∀ v ∈ row, v ≠ some "") →
    mb7621UpRows rows st = .ok st' →
    (∀ ch ∈ st.upstream_channels, usShaped ch) →
    (∀ ch ∈ st'.upstream_channels, usShaped ch) ∧
    st'.downstream_channels = st.downstream_channels := by
  induction rows with
  | nil =>
    intro st st' _ h hst
    obtain rfl : st = st' := Except.ok.inj h
    exact ⟨hst, rfl⟩
  | cons row rest ih =>
    intro st st' hwf h hst
    have hwfrow : ∀ v ∈ row, v ≠ some "" := hwf row (by simp)
    have hwfrest : ∀ r ∈ rest, ∀ v ∈ r, v ≠ some "" :=
      fun r hr => hwf r (by simp [hr])
    rw [mb7621UpRows] at h
    cases hidx : pyIndex row 1 with
    | error e => rw [hidx, bind_error_eq] at h; exact absurd h (by simp)
    | ok c1 =>
      rw [hidx, bind_ok_eq] at h
      split at h
      · exact ih st st' hwfrest h hst
      · obtain ⟨c3, hc3, h⟩ := except_bind_ok h
        obtain ⟨ch, hch, h⟩ := except_bind_ok h
        have hchs : usShaped ch := by
          refine upstream_shaped ?_ hch
          intro v hv
          rcases List.mem_append.mp hv with hv' | hv'
          · rcases List.mem_append.mp hv' with hv'' | hv''
            · obtain rfl : v = c3 := by simpa using hv''
              exact hwfrow _ (pyIndex_mem hc3)
            · exact hwfrow v (List.mem_of_mem_drop hv'')
          · obtain rfl : v = Option.none := by simpa using hv'
            simp
        have hnew : ∀ ch' ∈ st.upstream_channels ++ [ch], usShaped ch' := by
          intro ch' hch'
          rcases List.mem_append.mp hch' with hmem | hmem
          · exact hst ch' hmem
          · obtain rfl : ch' = ch := by simpa using hmem
            exact hchs
        exact ih { st with upstream_channels := st.upstream_channels ++ [ch] }
          st' hwfrest h hnew

theorem mb7621Table_shaped {t : HTable} {st st' : ParseState}
    (hwf : ∀ row ∈ t.rows, ∀ c ∈ row, c.content ≠ some "")
    (h : mb7621Table t st = .ok st')
    (hds : ∀ ch ∈ st.downstream_channels, dsShaped ch)
    (hus : ∀ ch ∈ st.upstream_channels, usShaped ch) :
    (∀ ch ∈ st'.downstream_channels, dsShaped ch) ∧
    (∀ ch ∈ st'.upstream_channels, usShaped ch) := by
  have hwfdata : ∀ row ∈ (parse_table t).drop 1, ∀ v ∈ row, v ≠ some "" := by
    intro row hrow v hv
    have hrow' : row ∈ parse_table t := List.mem_of_mem_drop hrow
    obtain ⟨r, hr, rfl⟩ := List.mem_map.mp hrow'
    obtain ⟨c, hc, rfl⟩ := List.mem_map.mp hv
    exact hwf r hr c (List.mem_of_mem_filter hc)
  rw [mb7621Table] at h
  split at h
  · obtain rfl : st = st' := Except.ok.inj h
    exact ⟨hds, hus⟩
  · cases hidx : pyIndex ((parse_table t).headD []) 0 with
    | error e => rw [hidx, bind_error_eq] at h; exact absurd h (by simp)
    | ok hn =>
      rw [hidx, bind_ok_eq] at h
      split at h
      · obtain rfl : st = st' := Except.ok.inj h
        exact ⟨hds, hus⟩
      · split at h
        · split at h
          · obtain rfl : { st with warnings := st.warnings ++ [mb7621DsWarning] } = st' :=
              Except.ok.inj h
            exact ⟨hds, hus⟩
          · obtain ⟨hsh, hup⟩ := mb7621DownRows_shaped _ _ hwfdata h hds
            exact ⟨hsh, by rw [hup]; exact hus⟩
        · split at h
          · split at h
            · obtain rfl : { st with warnings := st.warnings ++ [mb7621UsWarning] } = st' :=
                Except.ok.inj h
              exact ⟨hds, hus⟩
            · obtain ⟨hsh, hdown⟩ := mb7621UpRows_shaped _ _ hwfdata h hus
              exact ⟨by rw [hdown]; exact hds, hsh⟩
          · obtain rfl : st = st' := Except.ok.inj h
            exact ⟨hds, hus⟩

theorem mb7621Tables_shaped {ts : List HTable} :
    ∀ {st st' : ParseState},
    (∀ t ∈ ts, ∀ row ∈ t.rows, ∀ c ∈ row, c.content ≠ some "") →
    mb7621Tables ts st = .ok st' →
    (∀ ch ∈ st.downstream_channels, dsShaped ch) →
    (∀ ch ∈ st.upstream_channels, usShaped ch) →
    (∀ ch ∈ st'.downstream_channels, dsShaped ch) ∧
    (∀ ch ∈ st'.upstream_channels, usShaped ch) := by
  induction ts with
  | nil =>
    intro st st' _ h hds hus
    obtain rfl : st = st' := Except.ok.inj h
    exact ⟨hds, hus⟩
  | cons t rest ih =>
    intro st st' hwf h hds hus
    rw [mb7621Tables] at h
    obtain ⟨st1, h1, h⟩ := except_bind_ok h
    obtain ⟨hds1, hus1⟩ :=
      mb7621Table_shaped (hwf t (by simp)) h1 hds hus
    exact ih (fun t' ht' => hwf t' (by simp [ht'])) h hds1 hus1

/-- **C9, amended.** For every successful MB7621 parse of a well-formed
document (no cell carries an empty-string `.string`, which BeautifulSoup
never produces), each of `channel_id`, `corrected`, `uncorrectables` is
absent or an integer — possibly negative — and each of `frequency`,
`power`, `snr` is absent or a float — possibly infinite or NaN: the
parser guarantees the dynamic type of each field but performs no sign or
finiteness validation. -/
theorem c9_amended (page : Page) (st : ParseState) (hwf : wfPage page)
    (h : mb7621ParseStatusPage page = .ok st) :
    (∀ ch ∈ st.downstream_channels, dsShaped ch) ∧
    (∀ ch ∈ st.upstream_channels, usShaped ch) := by
  rw [mb7621ParseStatusPage] at h
  refine mb7621Tables_shaped ?_ h (by simp [initState]) (by simp [initState])
  intro t ht
  exact hwf t (List.mem_of_mem_filter ht)

/-- Witness for C9 (amended): the well-formed fixture page parses into
records whose fields all satisfy the shape invariant. -/
theorem c9_witness :
    (∀ ch ∈ [(⟨PyVal.int 2, PyVal.float (.finite (mkRat 7890 10)),
        PyVal.float (.finite (mkRat 84 10)), PyVal.float (.finite (mkRat 398 10)),
        PyVal.int 4, PyVal.int 0⟩ : DownstreamChannel)], dsShaped ch) ∧
    (∀ ch ∈ [(⟨PyVal.int 3, PyVal.float (.finite (mkRat 324 10)),
        PyVal.float (.finite (mkRat 374 10)), PyVal.none⟩ : UpstreamChannel)],
      usShaped ch) :=
  c9_amended motoStatusPage
    ⟨[⟨PyVal.int 2, PyVal.float (.finite (mkRat 7890 10)),
        PyVal.float (.finite (mkRat 84 10)), PyVal.float (.finite (mkRat 398 10)),
        PyVal.int 4, PyVal.int 0⟩],
      [⟨PyVal.int 3, PyVal.float (.finite (mkRat 324 10)),
        PyVal.float (.finite (mkRat 374 10)), PyVal.none⟩], []⟩
    (by unfold wfPage; decide) (by decide)

/-! ## Claim C10: the Arris upstream loop reuses the downstream `snr` -/

theorem arrisDownRow_ok {ns : String} {row : List Cell} {pt : ArrisPoint}
    {s : String} (h : arrisDownRow ns row = .ok (pt, s)) :
    pt.direction = "downstream" ∧ pyFloatParse s = .ok pt.snr := by
  unfold arrisDownRow at h
  obtain ⟨c0, h0, h⟩ := except_bind_ok h
  obtain ⟨c3, h3, h⟩ := except_bind_ok h
  obtain ⟨c4, h4, h⟩ := except_bind_ok h
  obtain ⟨c5, h5, h⟩ := except_bind_ok h
  obtain ⟨c6, h6, h⟩ := except_bind_ok h
  obtain ⟨c7, h7, h⟩ := except_bind_ok h
  obtain ⟨c8, h8, h⟩ := except_bind_ok h
  obtain ⟨cid, hcid, h⟩ := except_bind_ok h
  obtain ⟨fr, hfr, h⟩ := except_bind_ok h
  obtain ⟨pw, hpw, h⟩ := except_bind_ok h
  obtain ⟨sv, hsv, h⟩ := except_bind_ok h
  obtain ⟨co, hco, h⟩ := except_bind_ok h
  obtain ⟨un, hun, h⟩ := except_bind_ok h
  obtain ⟨chv, hchv, h⟩ := except_bind_ok h
  obtain ⟨hpt, hs⟩ := Prod.mk.injEq .. |>.mp (Except.ok.inj h)
  subst hpt
  subst hs
  exact ⟨rfl, hsv⟩

theorem arrisDownLoop_inv {ns : String} {rows : List (List Cell)} :
    ∀ (acc : List ArrisPoint) (snrVar : Option String)
      (res : List ArrisPoint × Option String),
    arrisDownLoop ns rows acc snrVar = .ok res →
    (∀ p ∈ acc, p.direction = "downstream") →
    (snrVar = Option.none → acc = []) →
    (∀ s, snrVar = some s →
      ∃ q, acc.getLast? = some q ∧ pyFloatParse s = .ok q.snr) →
    (∀ p ∈ res.1, p.direction = "downstream") ∧
    (res.2 = Option.none → res.1 = []) ∧
    (∀ s, res.2 = some s →
      ∃ q, res.1.getLast? = some q ∧ pyFloatParse s = .ok q.snr) := by
  induction rows with
  | nil =>
    intro acc snrVar res h hdir hnone hsome
    obtain rfl : (acc, snrVar) = res := Except.ok.inj h
    exact ⟨hdir, hnone, hsome⟩
  | cons row rest ih =>
    intro acc snrVar res h hdir hnone hsome
    rw [arrisDownLoop] at h
    split at h
    · exact ih acc snrVar res h hdir hnone hsome
    · obtain ⟨⟨pt, s⟩, hrow, h⟩ := except_bind_ok h
      obtain ⟨hptdir, hpts⟩ := arrisDownRow_ok hrow
      refine ih (acc ++ [pt]) (some s) res h ?_ ?_ ?_
      · intro p hp
        rcases List.mem_append.mp hp with hm | hm
        · exact hdir p hm
        · obtain rfl : p = pt := by simpa using hm
          exact hptdir
      · intro hcontra; exact absurd hcontra (by simp)
      · intro s' hs'
        obtain rfl : s = s' := by simpa using hs'
        exact ⟨pt, by simp [List.getLast?_concat], hpts⟩

theorem arrisUpRow_none {ns : String} {row : List Cell} :
    ∀ pt, arrisUpRow ns Option.none row ≠ .ok pt := by
  intro pt h
  unfold arrisUpRow at h
  obtain ⟨c0, h0, h⟩ := except_bind_ok h
  obtain ⟨c3, h3, h⟩ := except_bind_ok h
  obtain ⟨c5, h5, h⟩ := except_bind_ok h
  obtain ⟨c6, h6, h⟩ := except_bind_ok h
  obtain ⟨cid, hcid, h⟩ := except_bind_ok h
  obtain ⟨fr, hfr, h⟩ := except_bind_ok h
  obtain ⟨pw, hpw, h⟩ := except_bind_ok h
  obtain ⟨snrStr, hsnr, h⟩ := except_bind_ok h
  exact absurd hsnr (by simp)

theorem arrisUpRow_some {ns s : String} {row : List Cell} {pt : ArrisPoint}
    (h : arrisUpRow ns (some s) row = .ok pt) :
    pt.direction = "upstream" ∧ pyFloatParse s = .ok pt.snr := by
  unfold arrisUpRow at h
  obtain ⟨c0, h0, h⟩ := except_bind_ok h
  obtain ⟨c3, h3, h⟩ := except_bind_ok h
  obtain ⟨c5, h5, h⟩ := except_bind_ok h
  obtain ⟨c6, h6, h⟩ := except_bind_ok h
  obtain ⟨cid, hcid, h⟩ := except_bind_ok h
  obtain ⟨fr, hfr, h⟩ := except_bind_ok h
  obtain ⟨pw, hpw, h⟩ := except_bind_ok h
  obtain ⟨snrStr, hsnr, h⟩ := except_bind_ok h
  obtain rfl : s = snrStr := Except.ok.inj hsnr
  obtain ⟨sv, hsv, h⟩ := except_bind_ok h
  obtain ⟨chv, hchv, h⟩ := except_bind_ok h
  obtain rfl :
      (⟨ns, chv, "upstream", cid, fr, pw, sv, Option.none, Option.none⟩ :
        ArrisPoint) = pt := Except.ok.inj h
  exact ⟨rfl, hsv⟩

theorem arrisUpLoop_inv {ns : String} {rows : List (List Cell)} :
    ∀ (acc : List ArrisPoint) (snrVar : Option String) (pts : List ArrisPoint),
    arrisUpLoop ns rows acc snrVar = .ok pts →
    ∃ newPts, pts = acc ++ newPts ∧
      ∀ p ∈ newPts, p.direction = "upstream" ∧
        ∃ s, snrVar = some s ∧ pyFloatParse s = .ok p.snr := by
  induction rows with
  | nil =>
    intro acc snrVar pts h
    obtain rfl : acc = pts := Except.ok.inj h
    exact ⟨[], by simp, by simp⟩
  | cons row rest ih =>
    intro acc snrVar pts h
    rw [arrisUpLoop] at h
    split at h
    · exact ih acc snrVar pts h
    · cases snrVar with
      | none =>
        obtain ⟨pt, hpt, _⟩ := except_bind_ok h
        exact absurd hpt (arrisUpRow_none pt)
      | some s =>
        obtain ⟨pt, hpt, h⟩ := except_bind_ok h
        obtain ⟨hdir, hparse⟩ := arrisUpRow_some hpt
        obtain ⟨newPts, rfl, hprop⟩ := ih (acc ++ [pt]) (some s) pts h
        refine ⟨pt :: newPts, by simp, ?_⟩
        intro p hp
        rcases List.mem_cons.mp hp with rfl | hm
        · exact ⟨hdir, s, rfl, hparse⟩
        · exact hprop p hm

theorem arrisUpLoop_none_fail {ns : String} {rows : List (List Cell)} :
    ∀ acc : List ArrisPoint,
    (∃ row ∈ rows, rowHasTh row = false) →
    ∀ pts, arrisUpLoop ns rows acc Option.none ≠ .ok pts := by
  induction rows with
  | nil =>
    intro acc hex pts _
    obtain ⟨row, hrow, _⟩ := hex
    exact absurd hrow (by simp)
  | cons row rest ih =>
    intro acc hex pts h
    obtain ⟨r, hr, hth⟩ := hex
    rw [arrisUpLoop] at h
    split at h
    · rcases List.mem_cons.mp hr with rfl | hm
      · simp_all
      · exact ih acc ⟨r, hm, hth⟩ pts h
    · obtain ⟨pt, hpt, _⟩ := except_bind_ok h
      exact arrisUpRow_none pt hpt

theorem arrisDownLoop_skip {ns : String} {rows : List (List Cell)}
    (h : ∀ row ∈ rows, rowHasTh row = true) :
    ∀ acc snrVar, arrisDownLoop ns rows acc snrVar = .ok (acc, snrVar) := by
  induction rows with
  | nil => intro acc snrVar; rfl
  | cons row rest ih =>
    intro acc snrVar
    rw [arrisDownLoop, if_pos (h row (by simp))]
    exact ih (fun r hr => h r (by simp [hr])) acc snrVar

theorem arrisUpRow_unbound {ns : String} {row : List Cell}
    {c0 c3 c5 c6 : Cell} {n1 n2 : ℤ} {f : PyFloat}
    (h0 : pyIndex (rowTds row) 0 = .ok c0)
    (h3 : pyIndex (rowTds row) 3 = .ok c3)
    (h5 : pyIndex (rowTds row) 5 = .ok c5)
    (h6 : pyIndex (rowTds row) 6 = .ok c6)
    (hcid : pyInt (pyStrip (cellText c3)) = .ok n1)
    (hfr : pyInt (pyStrip (pyReplace (cellText c5) " Hz" "")) = .ok n2)
    (hpw : pyFloatParse (pyStrip (pyReplace (cellText c6) " dBmV" "")) = .ok f) :
    arrisUpRow ns Option.none row = .error .nameError := by
  unfold arrisUpRow
  simp only [h0, bind_ok_eq, h3, h5, h6, hcid, hfr, hpw, bind_error_eq]

/-- **C10.** The Arris upstream loop never assigns the `snr` variable:
in every successful parse, each upstream point's `snr` equals the `snr`
of the last downstream point (the residual value of the downstream
loop's `snr` variable); if the downstream table contributed no data rows
while the upstream table has at least one, the parse fails instead of
producing output — with a `NameError` (unbound local variable) when the
first upstream data row's cells are present and convert successfully up
to the point where `snr` is read. -/
theorem c10_arris_snr :
    (∀ (page : Page) (ns : String) (pts : List ArrisPoint),
      arrisParse page ns = .ok pts →
      ∀ p ∈ pts, p.direction = "upstream" →
        ∃ q, (pts.filter
            (fun r => decide (r.direction = "downstream"))).getLast? = some q ∧
          p.snr = q.snr) ∧
    (∀ (page : Page) (ns : String) (t2 t3 : HTable),
      page.tables.get? 2 = some t2 → page.tables.get? 3 = some t3 →
      (∀ row ∈ t2.rows.drop 2, rowHasTh row = true) →
      (∃ row ∈ t3.rows.drop 2, rowHasTh row = false) →
      ∀ pts, arrisParse page ns ≠ .ok pts) ∧
    (∀ (page : Page) (ns : String) (t2 t3 : HTable) (row : List Cell)
        (rest : List (List Cell)) (c0 c3 c5 c6 : Cell) (n1 n2 : ℤ) (f : PyFloat),
      page.tables.get? 2 = some t2 → page.tables.get? 3 = some t3 →
      (∀ r ∈ t2.rows.drop 2, rowHasTh r = true) →
      t3.rows.drop 2 = row :: rest → rowHasTh row = false →
      pyIndex (rowTds row) 0 = .ok c0 →
      pyIndex (rowTds row) 3 = .ok c3 →
      pyIndex (rowTds row) 5 = .ok c5 →
      pyIndex (rowTds row) 6 = .ok c6 →
      pyInt (pyStrip (cellText c3)) = .ok n1 →
      pyInt (pyStrip (pyReplace (cellText c5) " Hz" "")) = .ok n2 →
      pyFloatParse (pyStrip (pyReplace (cellText c6) " dBmV" "")) = .ok f →
      arrisParse page ns = .error .nameError) := by
  refine ⟨?_, ?_, ?_⟩
  · intro page ns pts h p hp hdir
    unfold arrisParse at h
    obtain ⟨t2, ht2, h⟩ := except_bind_ok h
    obtain ⟨r, hdl, h⟩ := except_bind_ok h
    obtain ⟨t3, ht3, h⟩ := except_bind_ok h
    have hdinv := arrisDownLoop_inv [] Option.none r hdl (by simp)
      (fun _ => rfl) (by simp)
    obtain ⟨newPts, rfl, hnew⟩ := arrisUpLoop_inv _ _ _ h
    rcases List.mem_append.mp hp with hm | hm
    · have hd := hdinv.1 p hm
      rw [hdir] at hd
      exact absurd hd (by simp)
    · obtain ⟨_, s, hs, hparse⟩ := hnew p hm
      obtain ⟨q, hlast, hqparse⟩ := hdinv.2.2 s hs
      have hfilter : (r.1 ++ newPts).filter
          (fun x => decide (x.direction = "downstream")) = r.1 := by
        rw [List.filter_append,
          List.filter_eq_self.mpr (fun a ha => by simp [hdinv.1 a ha]),
          List.filter_eq_nil.mpr (fun a ha => by simp [(hnew a ha).1]),
          List.append_nil]
      exact ⟨q, by rw [hfilter]; exact hlast,
        Except.ok.inj (hparse.symm.trans hqparse)⟩
  · intro page ns t2 t3 ht2 ht3 hall hex pts h
    obtain ⟨row, hrow, hth⟩ := hex
    unfold arrisParse at h
    obtain ⟨t2', ht2', h⟩ := except_bind_ok h
    obtain rfl : t2' = t2 := by
      rw [pyIndex, ht2] at ht2'
      exact (Except.ok.inj ht2').symm
    obtain ⟨r, hdl, h⟩ := except_bind_ok h
    obtain rfl : (([], Option.none) : List ArrisPoint × Option String) = r :=
      Except.ok.inj ((arrisDownLoop_skip hall [] Option.none).symm.trans hdl)
    obtain ⟨t3', ht3', h⟩ := except_bind_ok h
    obtain rfl : t3' = t3 := by
      rw [pyIndex, ht3] at ht3'
      exact (Except.ok.inj ht3').symm
    exact arrisUpLoop_none_fail _ ⟨row, hrow, hth⟩ pts h
  · intro page ns t2 t3 row rest c0 c3 c5 c6 n1 n2 f ht2 ht3 hall hdrop hth
      h0 h3 h5 h6 hcid hfr hpw
    have hidx2 : pyIndex page.tables 2 = .ok t2 := by rw [pyIndex, ht2]
    have hidx3 : pyIndex page.tables 3 = .ok t3 := by rw [pyIndex, ht3]
    unfold arrisParse
    rw [hidx2, bind_ok_eq, arrisDownLoop_skip hall [] Option.none, bind_ok_eq,
      hidx3, bind_ok_eq, hdrop, arrisUpLoop, if_neg (by simp [hth]),
      arrisUpRow_unbound h0 h3 h5 h6 hcid hfr hpw, bind_error_eq]

/-- Witness for C10: on the Arris fixture the single upstream point's SNR
equals the SNR of the last (only) downstream point; and on the fixture
whose downstream table has no data rows, the parse fails with the
unbound-variable error. -/
theorem c10_witness :
    (∃ q, (([⟨"1", 1, "downstream", 2, 789000000, .finite (mkRat 84 10),
          .finite (mkRat 398 10), some 4, some 0⟩,
        ⟨"1", 1, "upstream", 3, 32400000, .finite (mkRat 375 10),
          .finite (mkRat 398 10), Option.none, Option.none⟩] :
        List ArrisPoint).filter
          (fun r => decide (r.direction = "downstream"))).getLast? = some q ∧
      (⟨"1", 1, "upstream", 3, 32400000, .finite (mkRat 375 10),
        .finite (mkRat 398 10), Option.none, Option.none⟩ :
        ArrisPoint).snr = q.snr) ∧
    arrisParse arrisNoDownPage "1" = .error .nameError :=
  ⟨c10_arris_snr.1 arrisStatusPage "1"
      [⟨"1", 1, "downstream", 2, 789000000, .finite (mkRat 84 10),
        .finite (mkRat 398 10), some 4, some 0⟩,
       ⟨"1", 1, "upstream", 3, 32400000, .finite (mkRat 375 10),
        .finite (mkRat 398 10), Option.none, Option.none⟩]
      (by decide)
      ⟨"1", 1, "upstream", 3, 32400000, .finite (mkRat 375 10),
        .finite (mkRat 398 10), Option.none, Option.none⟩
      (by decide) (by decide),
   c10_arris_snr.2.2 arrisNoDownPage "1"
      ⟨[], [[thCell "Downstream Bonded Channels"], [thCell "Channel"],
        [thCell "No channels"]]⟩
      ⟨[], [[thCell "Upstream Bonded Channels"], [thCell "Channel"],
        arrisUsDataRow "1" "3" "5120" "32400000 Hz" "37.5 dBmV"]⟩
      (arrisUsDataRow "1" "3" "5120" "32400000 Hz" "37.5 dBmV") []
      (tdCell "1") (tdCell "3") (tdCell "32400000 Hz") (tdCell "37.5 dBmV")
      3 32400000 (.finite (mkRat 375 10))
      (by decide) (by decide) (by decide) (by decide) (by decide) (by decide)
      (by decide) (by decide) (by decide) (by decide) (by decide) (by decide)⟩

end CableModemStats
